import Mathlib

/-!
Verification development for the research-agent backend.

The definitions below are a shallow embedding of the server-side code:

* `src/services/cache.js`          — in-memory TTL cache (`cacheGet` / `cacheSet`);
* `src/middleware/rateLimit.js`    — fixed-window in-memory rate limiter;
* `src/middleware/validate.js`     — input validation for POST /api/research;
* `src/api/history.js`             — history listing (limit/offset clamping, ordering);
* `src/services/researchEngine.js` — `executeQuick`, `executeStandard`, `executeDeep`;
* `src/api/research.js`            — POST /api/research and GET /api/research/:id/stream;
* `src/middleware/errorHandler.js` — central error handler;
* `src/db/schema.sql`              — row shapes for sessions/phases/reports/error_logs.

External collaborators that are not part of the repository are modelled as
oracles: the LLM provider (`aiProvider.js` is referenced but the analysed tree
only contains its call sites), the JSON parser used on the query-analysis
response, the web-search provider, the wall clock (`Date.now()`), and the
database's id generation and `now()` default.  Database writes are modelled as
an effect trace folded into an explicit state; writes are assumed to succeed.
JavaScript strings are modelled by Lean `String` (faithful for the ASCII
inputs the claims are about).
-/

namespace ResearchAgent

/-- Research mode (`mode IN ('quick','standard','deep')` in the schema). -/
inductive Mode
  | quick
  | standard
  | deep
deriving DecidableEq

/-- Session status (`status IN ('pending','running','completed','failed')`). -/
inductive Status
  | pending
  | running
  | completed
  | failed
deriving DecidableEq

/-- Token usage triple returned by `chatCompletion`. -/
structure Tokens where
  input : Nat
  output : Nat
  total : Nat
deriving DecidableEq

/-- Result of one `chatCompletion` call. -/
structure LLMResult where
  content : String
  tokens : Tokens
deriving DecidableEq

/-- A thrown JavaScript error, as observed by catch blocks. -/
structure JsError where
  message : String
  stack : String
deriving DecidableEq

/-- One search hit as normalised by `searchWeb` in searchProvider.js
(`title`, `url`, `snippet`, `score`). Scores are rationals in [0,1]. -/
structure SearchResult where
  title : String
  url : String
  snippet : String
  score : Rat
deriving DecidableEq

/-- A citation row (`{id, title, url, relevance}`). -/
structure Citation where
  id : Nat
  title : String
  url : String
  relevance : Rat
deriving DecidableEq

/-! ## Cache (`src/services/cache.js`)

The store is a `Map` from the truncated-sha256 key to `{data, expiresAt}`.
The hash itself lives in node's crypto module, so it is kept abstract: every
definition takes the digest function `h : String → String` as a parameter and
applies it to the exact pre-image the code builds, `query ++ "::" ++ mode`.
The cached value type is kept abstract as a type parameter. -/

/-- Cached payload plus its absolute expiry instant (`{ data, expiresAt }`). -/
structure CacheEntry (α : Type) where
  data : α
  expiresAt : Nat
deriving DecidableEq

/-- The in-memory store: an association list standing for the `Map`. -/
abbrev CacheStore (α : Type) : Type := List (String × CacheEntry α)

/-- Per-mode TTL table from cache.js (quick 15m, standard 20m, deep 30m),
in milliseconds. -/
def cacheTTL : Mode → Nat
  | .quick => 15 * 60 * 1000
  | .standard => 20 * 60 * 1000
  | .deep => 30 * 60 * 1000

/-- `makeKey(query, mode)`: digest of the string `query + "::" + mode`,
with the digest function abstracted. -/
def makeKey (h : String → String) (query : String) (mode : Mode) : String :=
  h (query ++ "::" ++ (match mode with
    | .quick => "quick"
    | .standard => "standard"
    | .deep => "deep"))

/-- `Map.get` on the association list. -/
def storeGet {α : Type} : CacheStore α → String → Option (CacheEntry α)
  | [], _ => none
  | (k, e) :: rest, key => if k = key then some e else storeGet rest key

/-- `Map.set` on the association list: replace in place, or append. -/
def storeSet {α : Type} : CacheStore α → String → CacheEntry α → CacheStore α
  | [], key, e => [(key, e)]
  | (k, e0) :: rest, key, e =>
    if k = key then (key, e) :: rest else (k, e0) :: storeSet rest key e

/-- `Map.delete` on the association list. -/
def storeDelete {α : Type} : CacheStore α → String → CacheStore α
  | [], _ => []
  | (k, e) :: rest, key =>
    if k = key then rest else (k, e) :: storeDelete rest key

/-- `cacheGet(query, mode)` at instant `now`: miss on absent key; if
`now > expiresAt` the entry is deleted and the read misses; otherwise the
stored data is returned.  Returns the result together with the store, since
an expired read mutates the store. -/
def cacheGet {α : Type} (h : String → String) (store : CacheStore α)
    (query : String) (mode : Mode) (now : Nat) : Option α × CacheStore α :=
  let key := makeKey h query mode
  match storeGet store key with
  | none => (none, store)
  | some entry =>
    if now > entry.expiresAt then (none, storeDelete store key)
    else (some entry.data, store)

/-- `cacheSet(query, mode, data)` at instant `now`: stores the value with
`expiresAt = now + TTL[mode]` (the `|| TTL.standard` fallback in the source
is unreachable over the `Mode` type). -/
def cacheSet {α : Type} (h : String → String) (store : CacheStore α)
    (query : String) (mode : Mode) (data : α) (now : Nat) : CacheStore α :=
  storeSet store (makeKey h query mode) ⟨data, now + cacheTTL mode⟩

/-- Reading the key just written returns the new entry. -/
theorem storeGet_storeSet {α : Type} (store : CacheStore α) (key : String)
    (e : CacheEntry α) : storeGet (storeSet store key e) key = some e := by
  induction store with
  | nil => simp [storeSet, storeGet]
  | cons head rest ih =>
    obtain ⟨k, e0⟩ := head
    by_cases hk : k = key
    · simp [storeSet, storeGet, hk]
    · simp [storeSet, storeGet, hk, ih]

/-! ## Rate limiter (`src/middleware/rateLimit.js`)

Per key (source address) the module keeps `{count, start}` in a module-level
`Map` shared by every middleware instance.  A request either starts a new
window (no record, or the record is older than `windowMs`), or increments the
count and is rejected with a `Retry-After` once the count exceeds
`maxRequests`.  Instants are `Date.now()` values, assumed monotone per key
(a record's `start` is always a past reading of the same clock). -/

/-- A per-key window record (`{ count, start }`). -/
structure RLRecord where
  count : Nat
  start : Nat
deriving DecidableEq

/-- Outcome of one request through the middleware. -/
inductive RLOutcome
  | admitted
  | limited (retryAfter : Nat)
deriving DecidableEq

/-- One request through `rateLimit(maxRequests, windowMs)` for a single key:
returns the response outcome and the updated record.
`Math.ceil(x / 1000)` on the nonnegative remaining time is `(x + 999) / 1000`. -/
def rlStep (maxRequests windowMs : Nat) (rec : Option RLRecord) (now : Nat) :
    RLOutcome × RLRecord :=
  match rec with
  | none => (.admitted, ⟨1, now⟩)
  | some r =>
    if now - r.start > windowMs then
      (.admitted, ⟨1, now⟩)
    else
      let c := r.count + 1
      if c > maxRequests then
        (.limited ((r.start + windowMs - now + 999) / 1000), ⟨c, r.start⟩)
      else
        (.admitted, ⟨c, r.start⟩)

/-- Run a sequence of requests (their `Date.now()` instants) for one key,
starting from a given record. -/
def rlRunFrom (maxRequests windowMs : Nat) (rec : Option RLRecord) :
    List Nat → List RLOutcome
  | [] => []
  | t :: ts =>
    let s := rlStep maxRequests windowMs rec t
    s.1 :: rlRunFrom maxRequests windowMs (some s.2) ts

/-- Run a sequence of requests for a fresh key (no record yet). -/
def rlRun (maxRequests windowMs : Nat) (times : List Nat) : List RLOutcome :=
  rlRunFrom maxRequests windowMs none times

/-- The research router mounts `rateLimit(20, 60000)`. -/
def researchRateLimitMax : Nat := 20

/-- The history router mounts `rateLimit(60, 60000)`. -/
def historyRateLimitMax : Nat := 60

/-- Both routers use a 60000 ms window. -/
def rateLimitWindowMs : Nat := 60000

/-! ## Input validation (`src/middleware/validate.js`)

`validateResearchInput` checks the body's `query` and `mode`.  Strings are
handled at the character-list level so that every step is kernel-computable;
JS `\w` is `[A-Za-z0-9_]`, and `String.trim` / `\s` are modelled on the
ASCII whitespace characters. -/

/-- JS regex `\w`: ASCII letters, digits and underscore. -/
def isWordChar (c : Char) : Bool :=
  c.isAlphanum || c = '_'

/-- Whitespace as used by `trim` and `\s` (ASCII subset). -/
def isSpaceChar (c : Char) : Bool :=
  c = ' ' || c = '\t' || c = '\n' || c = '\r'

/-- `String.prototype.trim`. -/
def trimChars (s : List Char) : List Char :=
  ((s.dropWhile isSpaceChar).reverse.dropWhile isSpaceChar).reverse

/-- Case-insensitive literal match of `pat` at the head of `s`
(ASCII case folding, as the pattern literals are ASCII). -/
def startsWithCI : List Char → List Char → Bool
  | [], _ => true
  | _ :: _, [] => false
  | p :: ps, c :: cs => p.toLower == c.toLower && startsWithCI ps cs

/-- Does the position predicate hold at some suffix of the text? -/
def anyPos (p : List Char → Bool) : List Char → Bool
  | [] => p []
  | c :: cs => p (c :: cs) || anyPos p cs

/-- Match of `/<script\b/i` at the current position: the literal `<script`
followed by end of input or a non-word character. -/
def scriptTagAt (s : List Char) : Bool :=
  startsWithCI "<script".data s &&
  (match s.drop 7 with
   | [] => true
   | c :: _ => !(isWordChar c))

/-- Match of `/javascript:/i` at the current position. -/
def jsColonAt (s : List Char) : Bool :=
  startsWithCI "javascript:".data s

/-- Match of `/on\w+\s*=/i` at the current position: `on`, then a nonempty
word-character run, then optional whitespace, then `=`.  (The regex engine's
backtracking cannot stop the `\w+` run early, because the next character of a
partial run is a word character and hence neither whitespace nor `=`.) -/
def onAttrAt : List Char → Bool
  | a :: b :: rest =>
    a.toLower == 'o' && b.toLower == 'n' &&
    decide (0 < (rest.takeWhile isWordChar).length) &&
    (match (rest.dropWhile isWordChar).dropWhile isSpaceChar with
     | '=' :: _ => true
     | _ => false)
  | _ => false

/-- `DANGEROUS_PATTERNS[0].test(t)`. -/
def containsScriptTag (t : String) : Bool := anyPos scriptTagAt t.data

/-- `DANGEROUS_PATTERNS[1].test(t)`. -/
def containsJsColon (t : String) : Bool := anyPos jsColonAt t.data

/-- `DANGEROUS_PATTERNS[2].test(t)`. -/
def containsOnAttr (t : String) : Bool := anyPos onAttrAt t.data

/-- Outcome of `validateResearchInput`: a 400 `validation_error` with the
response message, or the sanitised `(query, mode)` passed to the handler. -/
inductive ValidationOutcome
  | rejected (message : String)
  | accepted (query : String) (mode : Mode)
deriving DecidableEq

/-- `ALLOWED_MODES`. -/
def allowedModes : List String := ["quick", "standard", "deep"]

/-- The mode string to its `Mode` (only applied to allowed strings). -/
def toMode : String → Mode
  | "quick" => .quick
  | "deep" => .deep
  | _ => .standard

/-- `validateResearchInput(req)`.  `query = none` stands for an absent or
non-string `query`; an empty string is also caught by the `!query` test.
`mode = none` or the empty string is falsy and defaults to `standard`. -/
def validateResearchInput (query : Option String) (mode : Option String) :
    ValidationOutcome :=
  match query with
  | none => .rejected "Query is required and must be a string."
  | some q =>
    if q = "" then .rejected "Query is required and must be a string."
    else
      let t := trimChars q.data
      if t.length < 3 then
        .rejected "Query must be at least 3 characters."
      else if t.length > 2000 then
        .rejected "Query must be at most 2000 characters."
      else if containsScriptTag ⟨t⟩ || containsJsColon ⟨t⟩ || containsOnAttr ⟨t⟩ then
        .rejected "Query contains disallowed content."
      else
        match mode with
        | none => .accepted ⟨t⟩ .standard
        | some m =>
          if m = "" then .accepted ⟨t⟩ .standard
          else if m ∈ allowedModes then .accepted ⟨t⟩ (toMode m)
          else .rejected "Mode must be one of: quick, standard, deep"

/-- Modelled from the claim's wording: the pattern `<script` with no word
boundary, i.e. a bare case-insensitive substring test. -/
def specScriptPat (t : String) : Bool :=
  anyPos (startsWithCI "<script".data) t.data

/-- Modelled from the claim's wording: the pattern `javascript:`. -/
def specJsColonPat (t : String) : Bool :=
  anyPos (startsWithCI "javascript:".data) t.data

/-- Modelled from the claim's wording: the pattern `on\w+=`, with `=`
directly after the word run (no optional whitespace). -/
def specOnAttrAt : List Char → Bool
  | a :: b :: rest =>
    a.toLower == 'o' && b.toLower == 'n' &&
    decide (0 < (rest.takeWhile isWordChar).length) &&
    (match rest.dropWhile isWordChar with
     | '=' :: _ => true
     | _ => false)
  | _ => false

/-- Modelled from the claim's wording: text matches `on\w+=` somewhere. -/
def specOnAttrPat (t : String) : Bool := anyPos specOnAttrAt t.data

/-- The claim's acceptance predicate: trimmed length in [3, 2000] and none of
the three claim-quoted patterns matches. -/
def claimAccepts (q : String) : Bool :=
  let t : String := ⟨trimChars q.data⟩
  decide (3 ≤ t.data.length) && decide (t.data.length ≤ 2000) &&
  !(specScriptPat t) && !(specJsColonPat t) && !(specOnAttrPat t)

/-- The code's acceptance predicate, for comparison with `claimAccepts`. -/
def codeAccepts (q : String) (mode : Option String) : Bool :=
  match validateResearchInput (some q) mode with
  | .accepted _ _ => true
  | .rejected _ => false

/-! ## Database rows (`src/db/schema.sql`)

Row ids and `created_at` defaults are produced by the database; they enter
the model through oracles.  JSONB metadata is modelled as a tagged value. -/

/-- A `research_sessions` row. -/
structure Session where
  id : Nat
  query : String
  mode : Mode
  status : Status
  totalLatencyMs : Option Nat
  totalTokens : Option Nat
  createdAt : Nat
deriving DecidableEq

/-- Query-analysis JSON shape (`{coreQuestion, subQuestions, domain,
outputType}`); `subQuestions` is optional because the code guards it with
`?.` and `|| []`. -/
structure Analysis where
  coreQuestion : String
  subQuestions : Option (List String)
  domain : String
  outputType : String
deriving DecidableEq

/-- The phase `metadata` JSONB payloads actually written by the engine. -/
inductive Metadata
  | modelName (model : String)
  | analysisJson (a : Analysis)
  | sourcesFound (sources : Nat)
  | sourcesAndQueries (sources : Nat) (queries : Nat)
  | insightLength (n : Nat)
  | hasValidation (b : Bool)
  | reportLength (n : Nat)
  | citationCount (n : Nat)
deriving DecidableEq

/-- A `research_phases` row (`tokens_used` defaults to 0 when the INSERT
omits the column). -/
structure PhaseRow where
  sessionId : Nat
  phaseName : String
  durationMs : Nat
  tokensUsed : Nat
  metadata : Metadata
deriving DecidableEq

/-- A `reports` row. -/
structure ReportRow where
  sessionId : Nat
  content : String
  citations : List Citation
deriving DecidableEq

/-- An `error_logs` row (`session_id` may be NULL). -/
structure ErrorRow where
  sessionId : Option Nat
  message : String
  stack : Option String
deriving DecidableEq

/-- The database state touched by the research API. -/
structure DB where
  sessions : List Session
  phases : List PhaseRow
  reports : List ReportRow
  errors : List ErrorRow
deriving DecidableEq

/-! ## History listing (`src/api/history.js`) -/

/-- `parseInt(req.query.limit) || 50` then `Math.min(Math.max(limit,1),100)`.
`none` stands for an absent or non-numeric parameter (`parseInt` gave `NaN`);
note that an explicit `0` is falsy and falls back to the default 50. -/
def effectiveLimit (limitParam : Option Int) : Int :=
  let l : Int := match limitParam with
    | none => 50
    | some v => if v = 0 then 50 else v
  min (max l 1) 100

/-- `parseInt(req.query.offset) || 0` then `Math.max(offset, 0)`. -/
def effectiveOffset (offsetParam : Option Int) : Int :=
  let o : Int := match offsetParam with
    | none => 0
    | some v => v
  max o 0

/-- `ORDER BY s.created_at DESC` comparison, as a boolean total preorder. -/
def newestFirst (a b : Session) : Bool := decide (b.createdAt ≤ a.createdAt)

/-- The GET /api/history response body. -/
structure HistoryPage where
  items : List Session
  total : Nat
  limit : Int
  offset : Int
deriving DecidableEq

/-- The GET /api/history handler: clamp paging parameters, select sessions
newest-first with LIMIT/OFFSET, and count all sessions. -/
def listHistory (db : DB) (limitParam offsetParam : Option Int) : HistoryPage :=
  let l := effectiveLimit limitParam
  let o := effectiveOffset offsetParam
  { items := ((db.sessions.mergeSort newestFirst).drop o.toNat).take l.toNat
    total := db.sessions.length
    limit := l
    offset := o }

/-! ## Effects

Handlers and the engine are modelled as straight-line functions that return
the ordered list of their observable effects: LLM/search invocations,
`onProgress` callbacks, SQL writes, cache stores, SSE frames and the JSON
response.  Folding the SQL effects over a `DB` yields the persisted state. -/

/-- Which `chatCompletion` call site is being invoked. -/
inductive LLMLabel
  | quickCall
  | standardCall
  | analysisCall
  | extractionCall
  | validationCall
  | synthesisCall
deriving DecidableEq

/-- A progress event as built by `emit` (`data` is always null and omitted);
`timestamp` is `none` only for the handler's synthetic `starting` event. -/
structure ProgressEvent where
  phase : String
  progress : Nat
  message : String
  timestamp : Option Nat
deriving DecidableEq

/-- A completed research payload (the response body for quick/standard and
the cached value for every mode). -/
structure ResearchPayload where
  sessionId : Nat
  report : String
  citations : List Citation
  tokens : Tokens
  latencyMs : Nat
  mode : Mode
  query : String
deriving DecidableEq

/-- Payload of one SSE frame. -/
inductive SsePayload
  | progressData (e : ProgressEvent)
  | completeData (sessionId : Nat) (report : String) (citations : List Citation)
      (tokens : Tokens) (latencyMs : Nat)
  | errorData (message : String)
deriving DecidableEq

/-- A JSON response from the research API. -/
inductive Response
  | okPayload (p : ResearchPayload) (fromCache : Bool)
  | deepStarted (sessionId : Nat)
  | notFound
  | internalError
  | completedSnapshot (sessionId : Nat) (report : Option String) (citations : List Citation)
deriving DecidableEq

/-- One observable effect. -/
inductive Ev
  | llmCall (label : LLMLabel)
  | searchCalls (queries : List String)
  | progress (e : ProgressEvent)
  | sqlInsertSession (s : Session)
  | sqlInsertPhase (p : PhaseRow)
  | sqlInsertReport (r : ReportRow)
  | sqlUpdateCompleted (sessionId latencyMs totalTokens : Nat)
  | sqlUpdateFailed (sessionId : Nat)
  | sqlInsertError (e : ErrorRow)
  | cacheStore (query : String) (mode : Mode) (v : ResearchPayload) (now : Nat)
  | sseWrite (event : String) (payload : SsePayload)
  | respond (r : Response)
deriving DecidableEq

/-- Apply one SQL effect to the database (non-SQL effects leave it alone). -/
def applyEv (db : DB) : Ev → DB
  | .sqlInsertSession s => { db with sessions := db.sessions ++ [s] }
  | .sqlInsertPhase p => { db with phases := db.phases ++ [p] }
  | .sqlInsertReport r => { db with reports := db.reports ++ [r] }
  | .sqlUpdateCompleted sid lat tok =>
    { db with sessions := db.sessions.map (fun s =>
        if s.id = sid then
          { s with status := .completed, totalLatencyMs := some lat, totalTokens := some tok }
        else s) }
  | .sqlUpdateFailed sid =>
    { db with sessions := db.sessions.map (fun s =>
        if s.id = sid then { s with status := .failed } else s) }
  | .sqlInsertError e => { db with errors := db.errors ++ [e] }
  | _ => db

/-- Fold a whole effect trace into the database. -/
def applyTrace (db : DB) (evs : List Ev) : DB := evs.foldl applyEv db

/-- The environment of a request: wall-clock readings, the LLM collaborator,
the JSON parser applied to the query-analysis content, the search provider
(whose failures are already degraded to empty lists inside `searchWeb`), and
the database's generated session id and `now()` default.  `clock n` is the
n-th `Date.now()` reading inside the engine, `apiNow n` the n-th reading in
the route handler. -/
structure Oracle where
  clock : Nat → Nat
  apiNow : Nat → Nat
  dbNow : Nat
  llm : LLMLabel → Except JsError LLMResult
  parseAnalysis : String → Option Analysis
  search : String → List SearchResult
  newSessionId : Nat

/-- Componentwise token accumulation (`totalTokens.input += …` etc.). -/
def addTokens (a b : Tokens) : Tokens :=
  ⟨a.input + b.input, a.output + b.output, a.total + b.total⟩

/-- The engine's running total starts at zero. -/
def zeroTokens : Tokens := ⟨0, 0, 0⟩

/-- What `executeQuick` / `executeStandard` / `executeDeep` return on success. -/
structure EngineResult where
  report : String
  citations : List Citation
  tokens : Tokens
  latencyMs : Nat
deriving DecidableEq

/-- Engine outcomes are comparable (used only to state concrete facts). -/
instance {ε α : Type} [DecidableEq ε] [DecidableEq α] : DecidableEq (Except ε α) :=
  fun a b =>
    match a, b with
    | .ok x, .ok y =>
      if hxy : x = y then isTrue (by rw [hxy])
      else isFalse (by intro hc; injection hc; contradiction)
    | .error x, .error y =>
      if hxy : x = y then isTrue (by rw [hxy])
      else isFalse (by intro hc; injection hc; contradiction)
    | .ok _, .error _ => isFalse (by intro hc; cases hc)
    | .error _, .ok _ => isFalse (by intro hc; cases hc)

/-! ## Quick mode (`executeQuick`) -/

/-- `executeQuick(query, sessionId)`: one LLM call, one
`quick_synthesis` phase row.  Clock readings: 0 = startTime, 1 = end. -/
def executeQuick (_q : String) (sid : Nat) (o : Oracle) :
    List Ev × Except JsError EngineResult :=
  match o.llm .quickCall with
  | .error err => ([.llmCall .quickCall], .error err)
  | .ok r =>
    let duration := o.clock 1 - o.clock 0
    ([.llmCall .quickCall,
      .sqlInsertPhase ⟨sid, "quick_synthesis", duration, r.tokens.total, .modelName "gpt-4o-mini"⟩],
     .ok ⟨r.content, [], r.tokens, duration⟩)

/-! ## Standard mode (`executeStandard`) -/

/-- `executeStandard(query, sessionId)`: search, `source_discovery` phase row
(no `tokens_used` column, so it defaults to 0), one LLM call,
`structured_synthesis` phase row, citations from the search results.
Clock readings: 0 totalStart, 1/2 phase 1, 3/4 phase 2, 5 end. -/
def executeStandard (q : String) (sid : Nat) (o : Oracle) :
    List Ev × Except JsError EngineResult :=
  let searchResults := o.search q
  let row1 : PhaseRow :=
    ⟨sid, "source_discovery", o.clock 2 - o.clock 1, 0, .sourcesFound searchResults.length⟩
  match o.llm .standardCall with
  | .error err =>
    ([.searchCalls [q], .sqlInsertPhase row1, .llmCall .standardCall], .error err)
  | .ok r =>
    let row2 : PhaseRow :=
      ⟨sid, "structured_synthesis", o.clock 4 - o.clock 3, r.tokens.total, .modelName "gpt-4o-mini"⟩
    let citations := searchResults.enum.map (fun p =>
      Citation.mk (p.1 + 1) p.2.title p.2.url p.2.score)
    ([.searchCalls [q], .sqlInsertPhase row1, .llmCall .standardCall, .sqlInsertPhase row2],
     .ok ⟨r.content, citations, addTokens zeroTokens r.tokens, o.clock 5 - o.clock 0⟩)

/-! ## Deep mode (`executeDeep`) -/

/-- Progress effect helper, mirroring `emit` (which stamps `Date.now()`). -/
def pev (phase : String) (progress : Nat) (message : String) (t : Nat) : Ev :=
  .progress ⟨phase, progress, message, some t⟩

/-- The phase-1 exit message built from the (possibly fallback) analysis. -/
def deepPhase1Msg (analysis : Analysis) : String :=
  "Identified " ++ toString (analysis.subQuestions.getD []).length ++
    " sub-questions in \"" ++ analysis.domain ++ "\" domain"

/-- URL deduplication with a first-occurrence-wins seen set. -/
def dedupByUrl : List SearchResult → List String → List SearchResult
  | [], _ => []
  | r :: rs, seen =>
    if r.url ∈ seen then dedupByUrl rs seen
    else r :: dedupByUrl rs (r.url :: seen)

/-- Phase 3 body: one extraction call if any sources were found, else skip
(`extractedInsights` stays the empty string and the running token total is
unchanged). -/
def deepStep3 (allSources : List SearchResult) (toks1 : Tokens) (o : Oracle) :
    List Ev × Except JsError (String × Tokens) :=
  if 0 < allSources.length then
    match o.llm .extractionCall with
    | .error err => ([.llmCall .extractionCall], .error err)
    | .ok xr => ([.llmCall .extractionCall], .ok (xr.content, addTokens toks1 xr.tokens))
  else ([], .ok ("", toks1))

/-- Phase 4 body: one validation call if extraction produced output, else
skip. -/
def deepStep4 (extractedInsights : String) (toks3 : Tokens) (o : Oracle) :
    List Ev × Except JsError (String × Tokens) :=
  if extractedInsights = "" then ([], .ok ("", toks3))
  else
    match o.llm .validationCall with
    | .error err => ([.llmCall .validationCall], .error err)
    | .ok vr => ([.llmCall .validationCall], .ok (vr.content, addTokens toks3 vr.tokens))

/-- `executeDeep(query, sessionId, onProgress)`: the six-phase pipeline.
Clock readings follow the source order of `Date.now()` calls: 0 totalStart;
1 emit(5); 2/3 phase 1; 4 emit(15); 5 emit(20); 6/7 phase 2; 8 emit(30);
9 emit(35); 10/11 phase 3; 12 emit(50); 13 emit(55); 14/15 phase 4;
16 emit(65); 17 emit(70); 18/19 phase 5; 20 emit(85); 21 emit(90);
22/23 phase 6; 24 emit(100); 25 final latency.  A thrown LLM error aborts
with the effect prefix produced so far.  Note the phase-row token columns:
`content_extraction` records the accumulated `totalTokens.total`, and
`cross_validation` records the literal 0, exactly as in the source. -/
def executeDeep (q : String) (sid : Nat) (o : Oracle) :
    List Ev × Except JsError EngineResult :=
  let e5 := pev "query_analysis" 5 "Analyzing query structure and intent..." (o.clock 1)
  match o.llm .analysisCall with
  | .error err => ([e5, .llmCall .analysisCall], .error err)
  | .ok analysisResult =>
    let toks1 := addTokens zeroTokens analysisResult.tokens
    let analysis := match o.parseAnalysis analysisResult.content with
      | some a => a
      | none => ⟨q, some [q], "general", "analysis"⟩
    let row1 : PhaseRow :=
      ⟨sid, "query_analysis", o.clock 3 - o.clock 2, analysisResult.tokens.total, .analysisJson analysis⟩
    let searchQueries := q :: (analysis.subQuestions.getD []).take 3
    let allSources := dedupByUrl (searchQueries.map o.search).flatten []
    let row2 : PhaseRow :=
      ⟨sid, "source_discovery", o.clock 7 - o.clock 6, 0, .sourcesAndQueries allSources.length searchQueries.length⟩
    let evsA : List Ev :=
      [e5, .llmCall .analysisCall, .sqlInsertPhase row1,
       pev "query_analysis" 15 (deepPhase1Msg analysis) (o.clock 4),
       pev "source_discovery" 20 "Searching for relevant sources..." (o.clock 5),
       .searchCalls searchQueries, .sqlInsertPhase row2,
       pev "source_discovery" 30 ("Found " ++ toString allSources.length ++ " unique sources") (o.clock 8),
       pev "content_extraction" 35 "Extracting key insights from sources..." (o.clock 9)]
    let step3 := deepStep3 allSources toks1 o
    match step3.2 with
    | .error err => (evsA ++ step3.1, .error err)
    | .ok res3 =>
      let extractedInsights := res3.1
      let toks3 := res3.2
      let row3 : PhaseRow :=
        ⟨sid, "content_extraction", o.clock 11 - o.clock 10, toks3.total, .insightLength extractedInsights.length⟩
      let evsB : List Ev :=
        [.sqlInsertPhase row3,
         pev "content_extraction" 50 "Key insights extracted from all sources" (o.clock 12),
         pev "cross_validation" 55 "Validating findings across sources..." (o.clock 13)]
      let step4 := deepStep4 extractedInsights toks3 o
      match step4.2 with
      | .error err => (evsA ++ step3.1 ++ evsB ++ step4.1, .error err)
      | .ok res4 =>
        let validationReport := res4.1
        let toks4 := res4.2
        let row4 : PhaseRow :=
          ⟨sid, "cross_validation", o.clock 15 - o.clock 14, 0, .hasValidation (validationReport != "")⟩
        let evsC : List Ev :=
          [.sqlInsertPhase row4,
           pev "cross_validation" 65 "Cross-source validation complete" (o.clock 16),
           pev "structured_synthesis" 70 "Synthesizing comprehensive report..." (o.clock 17)]
        match o.llm .synthesisCall with
        | .error err =>
          (evsA ++ step3.1 ++ evsB ++ step4.1 ++ evsC ++ [.llmCall .synthesisCall], .error err)
        | .ok synthesisResult =>
          let toks5 := addTokens toks4 synthesisResult.tokens
          let row5 : PhaseRow :=
            ⟨sid, "structured_synthesis", o.clock 19 - o.clock 18, synthesisResult.tokens.total,
             .reportLength synthesisResult.content.length⟩
          let citations := allSources.enum.map (fun p =>
            Citation.mk (p.1 + 1) p.2.title p.2.url p.2.score)
          let row6 : PhaseRow :=
            ⟨sid, "citation_linking", o.clock 23 - o.clock 22, 0, .citationCount citations.length⟩
          (evsA ++ step3.1 ++ evsB ++ step4.1 ++ evsC ++
            [.llmCall .synthesisCall, .sqlInsertPhase row5,
             pev "structured_synthesis" 85 "Report synthesis complete" (o.clock 20),
             pev "citation_linking" 90 "Linking citations to sources..." (o.clock 21),
             .sqlInsertPhase row6,
             pev "citation_linking" 100 ("Linked " ++ toString citations.length ++ " citations") (o.clock 24)],
           .ok ⟨synthesisResult.content, citations, toks5, o.clock 25 - o.clock 0⟩)

/-! ## Stream endpoint (`GET /api/research/:id/stream`)

The handler registers `req.on('close', () => aborted = true)` and guards
the `onProgress` callback, the completion block, and the final `error`
frame with the `aborted` flag.  The abort instant is modelled by
`abortAt : Option Nat`: with `abortAt = some k` the flag is `true` from
position `k` of the engine's effect trace onward (`none` means the client
never disconnected).  Nothing else is affected: the engine itself receives
no cancellation signal, so its LLM calls, search calls and phase writes run
in full either way. -/

/-- Is the `aborted` flag set at engine-trace position `i`? -/
def abortedAt (abortAt : Option Nat) (i : Nat) : Bool :=
  match abortAt with
  | none => false
  | some k => decide (k ≤ i)

/-- Route one engine effect through the handler: a `progress` effect is
written to the response as an SSE `phase` frame iff the client has not yet
disconnected at its position; every other engine effect happens regardless. -/
def routeOne (abortAt : Option Nat) (i : Nat) (e : Ev) : List Ev :=
  match e with
  | .progress p =>
    if abortedAt abortAt i then [] else [.sseWrite "phase" (.progressData p)]
  | _ => [e]

/-- Route the whole position-indexed engine trace through the handler. -/
def routeProgress (abortAt : Option Nat) : List (Nat × Ev) → List Ev
  | [] => []
  | (i, e) :: rest => routeOne abortAt i e ++ routeProgress abortAt rest

/-- The unconditional first frame (`phase: starting, progress 0`). -/
def startingEvent : Ev :=
  .sseWrite "phase" (.progressData ⟨"starting", 0, "Starting deep research...", none⟩)

/-- The SSE part of the stream handler, entered once the session exists and
is not `completed`: run `executeDeep`; on success and no disconnect, insert
the report, mark the session completed, cache the payload and emit
`complete`; on disconnect, return without those writes; on an engine error,
log the error, mark the session failed, and emit `error` unless
disconnected. -/
def streamRun (sessionId : Nat) (sessionQuery : String) (sessionMode : Mode)
    (o : Oracle) (abortAt : Option Nat) : List Ev :=
  let eng := executeDeep sessionQuery sessionId o
  let mid := routeProgress abortAt eng.1.enum
  match eng.2 with
  | .ok r =>
    if abortedAt abortAt eng.1.length then startingEvent :: mid
    else
      let payload : ResearchPayload :=
        ⟨sessionId, r.report, r.citations, r.tokens, r.latencyMs, sessionMode, sessionQuery⟩
      startingEvent :: mid ++
        [.sqlInsertReport ⟨sessionId, r.report, r.citations⟩,
         .sqlUpdateCompleted sessionId r.latencyMs r.tokens.total,
         .cacheStore sessionQuery sessionMode payload (o.apiNow 3),
         .sseWrite "complete" (.completeData sessionId r.report r.citations r.tokens r.latencyMs)]
  | .error err =>
    startingEvent :: mid ++
      [.sqlInsertError ⟨some sessionId, err.message, some err.stack⟩,
       .sqlUpdateFailed sessionId] ++
      (if abortedAt abortAt eng.1.length then [] else [.sseWrite "error" (.errorData err.message)])

/-- `SELECT * FROM research_sessions WHERE id = $1`, first row. -/
def findSession (db : DB) (id : Nat) : Option Session :=
  db.sessions.find? (fun s => s.id == id)

/-- `SELECT content, citations FROM reports WHERE session_id = $1`, first row. -/
def findReport (db : DB) (id : Nat) : Option ReportRow :=
  db.reports.find? (fun r => r.sessionId == id)

/-- The full `GET /api/research/:id/stream` handler: 404 on a missing
session; a single JSON snapshot when the session is already `completed`;
otherwise — for any other status and any mode — a fresh run of the deep
pipeline on this connection. -/
def streamHandler (db : DB) (id : Nat) (o : Oracle) (abortAt : Option Nat) : List Ev :=
  match findSession db id with
  | none => [.respond .notFound]
  | some s =>
    if s.status = .completed then
      [.respond (.completedSnapshot id ((findReport db id).map (fun r => r.content))
        (((findReport db id).map (fun r => r.citations)).getD []))]
    else
      streamRun s.id s.query s.mode o abortAt

/-! ## POST /api/research (`src/api/research.js`)

The handler body after admission (`validateResearchInput` has already
trimmed the query and defaulted the mode).  `apiNow` readings: 0 at the
`cacheGet`, 1 = startTime, 2 = sync-mode end, 3 at the `cacheSet`.  On a
synchronous engine failure, `next(err)` reaches the central `errorHandler`,
which logs an ErrorEntry whose `session_id` is
`req.body?.sessionId || req.params?.id || null` — both absent on this
route, hence NULL — and responds 500; the session row is left as is. -/

def postResearch (h : String → String) (cache : CacheStore ResearchPayload)
    (q : String) (m : Mode) (o : Oracle) : List Ev × CacheStore ResearchPayload :=
  let read := cacheGet h cache q m (o.apiNow 0)
  match read.1 with
  | some v => ([.respond (.okPayload v true)], read.2)
  | none =>
    let sess : Session := ⟨o.newSessionId, q, m, .running, none, none, o.dbNow⟩
    match m with
    | .deep => ([.sqlInsertSession sess, .respond (.deepStarted sess.id)], read.2)
    | _ =>
      let eng := if m = .quick then executeQuick q sess.id o else executeStandard q sess.id o
      match eng.2 with
      | .error err =>
        (.sqlInsertSession sess :: eng.1 ++
          [.sqlInsertError ⟨none, err.message, some err.stack⟩, .respond .internalError],
         read.2)
      | .ok r =>
        let totalLatency := o.apiNow 2 - o.apiNow 1
        let payload : ResearchPayload :=
          ⟨sess.id, r.report, r.citations, r.tokens, totalLatency, m, q⟩
        (.sqlInsertSession sess :: eng.1 ++
          [.sqlInsertReport ⟨sess.id, r.report, r.citations⟩,
           .sqlUpdateCompleted sess.id totalLatency r.tokens.total,
           .cacheStore q m payload (o.apiNow 3),
           .respond (.okPayload payload false)],
         cacheSet h read.2 q m payload (o.apiNow 3))


/-- Effects produced inside the engine (as opposed to the route handler). -/
def isEngineEv : Ev → Bool
  | .llmCall _ => true
  | .searchCalls _ => true
  | .progress _ => true
  | .sqlInsertPhase _ => true
  | _ => false

/-- Is this effect an engine `onProgress` invocation? -/
def isProgressEv : Ev → Bool
  | .progress _ => true
  | _ => false

theorem deepStep3_engineEvs (s : List SearchResult) (t : Tokens) (o : Oracle) :
    ∀ e ∈ (deepStep3 s t o).1, isEngineEv e = true := by
  unfold deepStep3
  split
  · cases o.llm .extractionCall <;> simp [isEngineEv]
  · simp

theorem deepStep4_engineEvs (ins : String) (t : Tokens) (o : Oracle) :
    ∀ e ∈ (deepStep4 ins t o).1, isEngineEv e = true := by
  unfold deepStep4
  split
  · simp
  · cases o.llm .validationCall <;> simp [isEngineEv]

theorem executeDeep_engineEvs (q : String) (sid : Nat) (o : Oracle) :
    ∀ e ∈ (executeDeep q sid o).1, isEngineEv e = true := by
  intro e he
  unfold executeDeep at he
  rcases hA : o.llm .analysisCall with err | ar <;> rw [hA] at he
  · simp at he
    rcases he with rfl | rfl <;> rfl
  · dsimp only at he
    split at he
    · rw [List.mem_append] at he
      rcases he with h | h
      · simp at h
        rcases h with rfl | rfl | rfl | rfl | rfl | rfl | rfl | rfl | rfl <;> rfl
      · exact deepStep3_engineEvs _ _ _ e h
    · split at he
      · rw [List.mem_append, List.mem_append, List.mem_append] at he
        rcases he with ((h | h) | h) | h
        · simp at h
          rcases h with rfl | rfl | rfl | rfl | rfl | rfl | rfl | rfl | rfl <;> rfl
        · exact deepStep3_engineEvs _ _ _ e h
        · simp at h
          rcases h with rfl | rfl | rfl <;> rfl
        · exact deepStep4_engineEvs _ _ _ e h
      · rcases hS : o.llm .synthesisCall with err | sr <;> rw [hS] at he
        · simp only [List.mem_append] at he
          rcases he with ((((h | h) | h) | h) | h) | h
          · simp at h
            rcases h with rfl | rfl | rfl | rfl | rfl | rfl | rfl | rfl | rfl <;> rfl
          · exact deepStep3_engineEvs _ _ _ e h
          · simp at h
            rcases h with rfl | rfl | rfl <;> rfl
          · exact deepStep4_engineEvs _ _ _ e h
          · simp at h
            rcases h with rfl | rfl | rfl <;> rfl
          · simp at h
            subst h
            rfl
        · simp only [List.mem_append] at he
          rcases he with ((((h | h) | h) | h) | h) | h
          · simp at h
            rcases h with rfl | rfl | rfl | rfl | rfl | rfl | rfl | rfl | rfl <;> rfl
          · exact deepStep3_engineEvs _ _ _ e h
          · simp at h
            rcases h with rfl | rfl | rfl <;> rfl
          · exact deepStep4_engineEvs _ _ _ e h
          · simp at h
            rcases h with rfl | rfl | rfl <;> rfl
          · simp at h
            rcases h with rfl | rfl | rfl | rfl | rfl | rfl <;> rfl


theorem applyEv_engine (db : DB) (e : Ev) (he : isEngineEv e = true) :
    (applyEv db e).sessions = db.sessions ∧ (applyEv db e).reports = db.reports ∧
      (applyEv db e).errors = db.errors := by
  cases e <;> simp_all [applyEv, isEngineEv]

theorem applyTrace_engine (db : DB) (evs : List Ev)
    (h : ∀ e ∈ evs, isEngineEv e = true) :
    (applyTrace db evs).sessions = db.sessions ∧
      (applyTrace db evs).reports = db.reports ∧
      (applyTrace db evs).errors = db.errors := by
  induction evs generalizing db with
  | nil => exact ⟨rfl, rfl, rfl⟩
  | cons e rest ih =>
    have h1 : isEngineEv e = true := h e (by simp)
    have h2 : ∀ x ∈ rest, isEngineEv x = true := fun x hx => h x (by simp [hx])
    have step := applyEv_engine db e h1
    have tail := ih (applyEv db e) h2
    refine ⟨?_, ?_, ?_⟩
    · rw [show applyTrace db (e :: rest) = applyTrace (applyEv db e) rest from rfl,
        tail.1, step.1]
    · rw [show applyTrace db (e :: rest) = applyTrace (applyEv db e) rest from rfl,
        tail.2.1, step.2.1]
    · rw [show applyTrace db (e :: rest) = applyTrace (applyEv db e) rest from rfl,
        tail.2.2, step.2.2]

theorem routeOne_mem (k : Option Nat) (i : Nat) (e : Ev) :
    ∀ x ∈ routeOne k i e,
      (∃ p, x = Ev.sseWrite "phase" (.progressData p)) ∨ x = e := by
  cases e <;> intro x hx <;> simp [routeOne] at hx
  case progress p =>
    rcases Bool.eq_false_or_eq_true (abortedAt k i) with hb | hb <;> simp [hb] at hx
    exact Or.inl ⟨p, hx⟩
  all_goals subst hx
  all_goals simp

theorem routeProgress_mem (k : Option Nat) (l : List (Nat × Ev)) :
    ∀ e ∈ routeProgress k l,
      (∃ p, e = Ev.sseWrite "phase" (.progressData p)) ∨ ∃ i, (i, e) ∈ l := by
  induction l with
  | nil => intro e he; cases he
  | cons hd rest ih =>
    obtain ⟨i, ev⟩ := hd
    intro e he
    rcases List.mem_append.mp he with h | h
    · rcases routeOne_mem k i ev e h with h1 | rfl
      · exact Or.inl h1
      · exact Or.inr ⟨i, by simp⟩
    · rcases ih e h with h1 | ⟨j, hj⟩
      · exact Or.inl h1
      · exact Or.inr ⟨j, by simp [hj]⟩

theorem routeProgress_zero (l : List (Nat × Ev)) :
    routeProgress (some 0) l = (l.map Prod.snd).filter (fun e => !isProgressEv e) := by
  induction l with
  | nil => rfl
  | cons p rest ih =>
    obtain ⟨i, e⟩ := p
    cases e <;> simp [routeProgress, routeOne, abortedAt, isProgressEv, ih]

theorem routeProgress_keeps (k : Option Nat) (l : List (Nat × Ev)) (i : Nat) (e : Ev)
    (hmem : (i, e) ∈ l) (hnp : isProgressEv e = false) : e ∈ routeProgress k l := by
  induction l with
  | nil => cases hmem
  | cons hd rest ih =>
    rcases List.mem_cons.mp hmem with h | h
    · have hOne : routeOne k i e = [e] := by
        cases e <;> simp_all [routeOne, isProgressEv]
      subst h
      exact List.mem_append.mpr (Or.inl (by simp [hOne]))
    · exact List.mem_append.mpr (Or.inr (ih h))


/-- Effects that touch neither sessions nor reports nor errors. -/
def isHarmlessEv : Ev → Bool
  | .llmCall _ => true
  | .searchCalls _ => true
  | .progress _ => true
  | .sqlInsertPhase _ => true
  | .cacheStore _ _ _ _ => true
  | .sseWrite _ _ => true
  | .respond _ => true
  | _ => false

/-- Is this effect an SSE frame write? -/
def isSseEv : Ev → Bool
  | .sseWrite _ _ => true
  | _ => false

/-- Is this effect a report insert? -/
def isReportInsert : Ev → Bool
  | .sqlInsertReport _ => true
  | _ => false

/-- Is this effect a completed-status update? -/
def isCompletedUpdate : Ev → Bool
  | .sqlUpdateCompleted _ _ _ => true
  | _ => false

/-- Was this request admitted by the rate limiter? -/
def isAdmitted : RLOutcome → Bool
  | .admitted => true
  | _ => false

theorem engine_harmless (e : Ev) (he : isEngineEv e = true) : isHarmlessEv e = true := by
  cases e <;> simp_all [isEngineEv, isHarmlessEv]

theorem applyEv_harmless (db : DB) (e : Ev) (he : isHarmlessEv e = true) :
    (applyEv db e).sessions = db.sessions ∧ (applyEv db e).reports = db.reports ∧
      (applyEv db e).errors = db.errors := by
  cases e <;> simp_all [applyEv, isHarmlessEv]

theorem applyTrace_harmless (db : DB) (evs : List Ev)
    (h : ∀ e ∈ evs, isHarmlessEv e = true) :
    (applyTrace db evs).sessions = db.sessions ∧
      (applyTrace db evs).reports = db.reports ∧
      (applyTrace db evs).errors = db.errors := by
  induction evs generalizing db with
  | nil => exact ⟨rfl, rfl, rfl⟩
  | cons e rest ih =>
    have h1 : isHarmlessEv e = true := h e (by simp)
    have h2 : ∀ x ∈ rest, isHarmlessEv x = true := fun x hx => h x (by simp [hx])
    have step := applyEv_harmless db e h1
    have tail := ih (applyEv db e) h2
    refine ⟨?_, ?_, ?_⟩
    · rw [show applyTrace db (e :: rest) = applyTrace (applyEv db e) rest from rfl,
        tail.1, step.1]
    · rw [show applyTrace db (e :: rest) = applyTrace (applyEv db e) rest from rfl,
        tail.2.1, step.2.1]
    · rw [show applyTrace db (e :: rest) = applyTrace (applyEv db e) rest from rfl,
        tail.2.2, step.2.2]

theorem mem_of_mem_enumFrom {α : Type} (n i : Nat) (e : α) (l : List α)
    (h : (i, e) ∈ List.enumFrom n l) : e ∈ l := by
  induction l generalizing n with
  | nil => cases h
  | cons hd rest ih =>
    rcases List.mem_cons.mp h with h1 | h1
    · injection h1 with _ h2
      simp [h2]
    · exact List.mem_cons.mpr (Or.inr (ih (n + 1) h1))

theorem mem_enumFrom_of_mem {α : Type} (n : Nat) (e : α) (l : List α)
    (h : e ∈ l) : ∃ i, (i, e) ∈ List.enumFrom n l := by
  induction l generalizing n with
  | nil => cases h
  | cons hd rest ih =>
    rcases List.mem_cons.mp h with h1 | h1
    · exact ⟨n, by simp [h1]⟩
    · obtain ⟨i, hi⟩ := ih (n + 1) h1
      exact ⟨i, List.mem_cons.mpr (Or.inr hi)⟩

theorem executeQuick_engineEvs (q : String) (sid : Nat) (o : Oracle) :
    ∀ e ∈ (executeQuick q sid o).1, isEngineEv e = true := by
  intro e he
  unfold executeQuick at he
  rcases hA : o.llm .quickCall with err | r <;> rw [hA] at he <;> simp at he
  · subst he; rfl
  · rcases he with rfl | rfl <;> rfl

theorem executeStandard_engineEvs (q : String) (sid : Nat) (o : Oracle) :
    ∀ e ∈ (executeStandard q sid o).1, isEngineEv e = true := by
  intro e he
  unfold executeStandard at he
  rcases hA : o.llm .standardCall with err | r <;> rw [hA] at he <;> simp at he
  · rcases he with rfl | rfl | rfl <;> rfl
  · rcases he with rfl | rfl | rfl | rfl <;> rfl

theorem executeDeep_has_analysisCall (q : String) (sid : Nat) (o : Oracle) :
    Ev.llmCall .analysisCall ∈ (executeDeep q sid o).1 := by
  unfold executeDeep
  rcases hA : o.llm .analysisCall with err | ar
  · simp
  · dsimp only
    split
    · simp
    · split
      · simp
      · rcases hS : o.llm .synthesisCall with err | sr <;> simp

/-- An SSE `phase` frame produced by routing an all-engine trace originates
from a `progress` effect at a position before the disconnect. -/
theorem routeProgress_sse_src (k : Nat) (l : List (Nat × Ev)) (p : ProgressEvent)
    (hall : ∀ x ∈ l, isEngineEv x.2 = true)
    (hmem : Ev.sseWrite "phase" (.progressData p) ∈ routeProgress (some k) l) :
    ∃ i, i < k ∧ (i, Ev.progress p) ∈ l := by
  induction l with
  | nil => cases hmem
  | cons hd rest ih =>
    obtain ⟨i, ev⟩ := hd
    have hallr : ∀ x ∈ rest, isEngineEv x.2 = true := fun x hx => hall x (by simp [hx])
    rcases List.mem_append.mp hmem with h | h
    · cases ev with
      | progress pe =>
        by_cases hb : abortedAt (some k) i = true
        · simp [routeOne, hb] at h
        · simp [routeOne, hb] at h
          have hik : i < k := by
            have hnk : ¬ (k ≤ i) := fun hk => hb (by simp [abortedAt, hk])
            omega
          exact ⟨i, hik, by simp [h]⟩
      | llmCall lbl => simp [routeOne] at h
      | searchCalls qs => simp [routeOne] at h
      | sqlInsertPhase pr => simp [routeOne] at h
      | sqlInsertSession s =>
        exact absurd (hall _ (List.mem_cons_self _ _)) (by simp [isEngineEv])
      | sqlInsertReport r =>
        exact absurd (hall _ (List.mem_cons_self _ _)) (by simp [isEngineEv])
      | sqlUpdateCompleted a b c =>
        exact absurd (hall _ (List.mem_cons_self _ _)) (by simp [isEngineEv])
      | sqlUpdateFailed a =>
        exact absurd (hall _ (List.mem_cons_self _ _)) (by simp [isEngineEv])
      | sqlInsertError er =>
        exact absurd (hall _ (List.mem_cons_self _ _)) (by simp [isEngineEv])
      | cacheStore a b c d =>
        exact absurd (hall _ (List.mem_cons_self _ _)) (by simp [isEngineEv])
      | sseWrite a b =>
        exact absurd (hall _ (List.mem_cons_self _ _)) (by simp [isEngineEv])
      | respond r =>
        exact absurd (hall _ (List.mem_cons_self _ _)) (by simp [isEngineEv])
    · obtain ⟨j, hj, hjm⟩ := ih hallr h
      exact ⟨j, hj, by simp [hjm]⟩


/-! ## Fixtures for concrete evaluations -/

/-- A deterministic LLM collaborator used in concrete runs. -/
def demoLLM : LLMLabel → Except JsError LLMResult
  | .analysisCall => .ok ⟨"analysis-json", ⟨60, 40, 100⟩⟩
  | .extractionCall => .ok ⟨"insights", ⟨30, 20, 50⟩⟩
  | .validationCall => .ok ⟨"validation", ⟨20, 10, 30⟩⟩
  | .synthesisCall => .ok ⟨"REPORT", ⟨40, 30, 70⟩⟩
  | .quickCall => .ok ⟨"QUICK", ⟨70, 50, 120⟩⟩
  | .standardCall => .ok ⟨"STD", ⟨80, 60, 140⟩⟩

/-- One concrete search hit. -/
def demoSource : SearchResult := ⟨"T1", "http://a", "snip", 1⟩

/-- A fully-succeeding environment: the clock ticks 0,1,2,…, the search
provider returns one hit, the analysis JSON parses. -/
def demoOracle : Oracle :=
  { clock := fun n => n
    apiNow := fun n => 1000 + n
    dbNow := 5
    llm := demoLLM
    parseAnalysis := fun _ => some ⟨"core", some ["s1"], "dom", "analysis"⟩
    search := fun _ => [demoSource]
    newSessionId := 7 }

/-- Same environment with an unconfigured search provider (empty results). -/
def demoOracleNoSources : Oracle :=
  { demoOracle with search := fun _ => [] }

/-- Same environment whose LLM provider fails every call. -/
def demoOracleLLMDown : Oracle :=
  { demoOracle with llm := fun _ => .error ⟨"LLM provider failed", "stacktrace"⟩ }

/-- The empty database. -/
def emptyDb : DB := ⟨[], [], [], []⟩

/-- The `(phase_name, tokens_used)` columns of the phase rows in a trace. -/
def phaseTokens (evs : List Ev) : List (String × Nat) :=
  evs.filterMap (fun e =>
    match e with
    | .sqlInsertPhase p => some (p.phaseName, p.tokensUsed)
    | _ => none)

/-- C4 (code_bug): the deep pipeline's per-phase token accounting evaluated
at a concrete run whose LLM calls use 100/50/30/70 tokens.  The
`content_extraction` row records the accumulated running total (150, or 100
when extraction is skipped because no sources were found) instead of its own
call's tokens, and the `cross_validation` row records the literal 0 even
though it made a 30-token LLM call; the other four rows are as the claim
states. -/
theorem claim_C4_code_eval :
    phaseTokens (executeDeep "what" 7 demoOracle).1 =
      [("query_analysis", 100), ("source_discovery", 0), ("content_extraction", 150),
       ("cross_validation", 0), ("structured_synthesis", 70), ("citation_linking", 0)] ∧
    phaseTokens (executeDeep "what" 7 demoOracleNoSources).1 =
      [("query_analysis", 100), ("source_discovery", 0), ("content_extraction", 100),
       ("cross_validation", 0), ("structured_synthesis", 70), ("citation_linking", 0)] := by
  decide


/-- C8 (corrected): a `cacheGet` after `cacheSet(q,m,v)` at store time `t`
returns `v` at every instant up to AND INCLUDING `expiresAt = t + TTL(m)`;
only a read strictly after `expiresAt` deletes the entry and misses (the
code tests `now > expiresAt`, not `now ≥ expiresAt`); TTLs are quick 15m,
standard 20m, deep 30m. -/
theorem claim_C8_amended {α : Type} (h : String → String) (store : CacheStore α)
    (q : String) (m : Mode) (v : α) (t tr : Nat) :
    (tr ≤ t + cacheTTL m →
      (cacheGet h (cacheSet h store q m v t) q m tr).1 = some v) ∧
    (t + cacheTTL m < tr →
      (cacheGet h (cacheSet h store q m v t) q m tr).1 = none ∧
      (cacheGet h (cacheSet h store q m v t) q m tr).2 =
        storeDelete (cacheSet h store q m v t) (makeKey h q m)) ∧
    cacheTTL .quick = 900000 ∧ cacheTTL .standard = 1200000 ∧ cacheTTL .deep = 1800000 := by
  have hget : storeGet (cacheSet h store q m v t) (makeKey h q m) =
      some ⟨v, t + cacheTTL m⟩ := storeGet_storeSet store (makeKey h q m) _
  refine ⟨?_, ?_, rfl, rfl, rfl⟩
  · intro hle
    have hnot : ¬ (tr > t + cacheTTL m) := by omega
    simp [cacheGet, hget, hnot]
  · intro hlt
    constructor <;> simp [cacheGet, hget, hlt]

/-- C8 counterexample: at exactly `now = expiresAt` (store at 0, quick TTL,
read at 900000) the read returns the value and leaves the entry in place,
while the claim requires a miss with removal for every `now ≥ expiresAt`. -/
theorem claim_C8_counterexample :
    (cacheGet (fun s => s) (cacheSet (fun s => s) ([] : CacheStore Nat) "q" Mode.quick 42 0)
        "q" Mode.quick 900000).1 = some 42 ∧
    (cacheGet (fun s => s) (cacheSet (fun s => s) ([] : CacheStore Nat) "q" Mode.quick 42 0)
        "q" Mode.quick 900000).2 =
      cacheSet (fun s => s) ([] : CacheStore Nat) "q" Mode.quick 42 0 ∧
    0 + cacheTTL Mode.quick ≤ 900000 := by
  decide

/-- C8 witness: the amended theorem applied at a concrete store, both at
the inclusive boundary and just after it. -/
theorem claim_C8_witness :
    (cacheGet (fun s => s) (cacheSet (fun s => s) ([] : CacheStore Nat) "q" Mode.quick 1 0)
        "q" Mode.quick 900000).1 = some 1 ∧
    (cacheGet (fun s => s) (cacheSet (fun s => s) ([] : CacheStore Nat) "q" Mode.quick 1 0)
        "q" Mode.quick 900001).1 = none :=
  ⟨(claim_C8_amended (fun s => s) [] "q" Mode.quick 1 0 900000).1 (by decide),
   ((claim_C8_amended (fun s => s) [] "q" Mode.quick 1 0 900001).2.1 (by decide)).1⟩

/-- C9 counterexample: `limit=0` does not clamp to 1 as the claim states;
`parseInt(0)` is falsy, so the handler falls back to the default 50. -/
theorem claim_C9_counterexample :
    (listHistory emptyDb (some 0) none).limit = 50 ∧ ¬ effectiveLimit (some 0) = 1 := by
  decide

/-- C9 (corrected): the effective limit is 50 when the parameter is absent,
non-numeric or exactly 0, and otherwise clamps into [1,100] (so `limit=500`
gives 100 and `limit=-5` gives 1); the effective offset defaults to 0 and
clamps to ≥ 0 (`offset=-5` gives 0); the returned page is ordered
newest-first by creation time. -/
theorem claim_C9_amended (db : DB) (lp op : Option Int) :
    effectiveLimit none = 50 ∧ effectiveLimit (some 0) = 50 ∧
    effectiveLimit (some 500) = 100 ∧ effectiveOffset (some (-5)) = 0 ∧
    effectiveOffset none = 0 ∧
    1 ≤ effectiveLimit lp ∧ effectiveLimit lp ≤ 100 ∧ 0 ≤ effectiveOffset op ∧
    (listHistory db lp op).items.Pairwise (fun a b => b.createdAt ≤ a.createdAt) := by
  refine ⟨by decide, by decide, by decide, by decide, by decide, ?_, ?_, ?_, ?_⟩
  · rcases lp with _ | v
    · decide
    · unfold effectiveLimit
      dsimp only
      split_ifs <;> omega
  · rcases lp with _ | v
    · decide
    · unfold effectiveLimit
      dsimp only
      split_ifs <;> omega
  · rcases op with _ | v
    · decide
    · unfold effectiveOffset
      dsimp only
      omega
  · have htr : ∀ a b c : Session, newestFirst a b = true → newestFirst b c = true →
        newestFirst a c = true := by
      intro a b c hab hbc
      simp [newestFirst] at *
      omega
    have htot : ∀ a b : Session, (newestFirst a b || newestFirst b a) = true := by
      intro a b
      simp [newestFirst]
      omega
    have hsort := List.sorted_mergeSort htr htot db.sessions
    have hsub :
        (((db.sessions.mergeSort newestFirst).drop (effectiveOffset op).toNat).take
            (effectiveLimit lp).toNat).Sublist (db.sessions.mergeSort newestFirst) :=
      (List.take_sublist _ _).trans (List.drop_sublist _ _)
    have hp := hsort.sublist hsub
    exact hp.imp (fun hx => by simpa [newestFirst] using hx)


/-- Within one fixed window (all requests at most `windowMs` after the
record's `start`), a run from a record with count `c` admits at most
`maxRequests - c` further requests. -/
theorem rlRunFrom_admitted_bound (maxRequests windowMs s : Nat) (ts : List Nat)
    (hts : ∀ t ∈ ts, s ≤ t ∧ t - s ≤ windowMs) :
    ∀ c, (rlRunFrom maxRequests windowMs (some ⟨c, s⟩) ts).countP isAdmitted ≤
      maxRequests - c := by
  induction ts with
  | nil => intro c; simp [rlRunFrom]
  | cons t rest ih =>
    intro c
    have ht := hts t (by simp)
    have hrest : ∀ x ∈ rest, s ≤ x ∧ x - s ≤ windowMs := fun x hx => hts x (by simp [hx])
    have hnot : ¬ (t - s > windowMs) := by omega
    by_cases hc : c + 1 > maxRequests
    · have htail := ih hrest (c + 1)
      simp only [rlRunFrom, rlStep, hnot, if_false, hc, if_true, List.countP_cons]
      simp [isAdmitted]
      omega
    · have htail := ih hrest (c + 1)
      simp only [rlRunFrom, rlStep, hnot, if_false, hc, if_true, List.countP_cons]
      simp [isAdmitted]
      omega

/-- C6 (corrected): the middleware is a fixed window anchored at the first
request of the window, not a rolling window.  The research router uses
(20, 60000) and the history router (60, 60000); within the current window a
request that pushes the count past `maxRequests` is answered 429 with
`Retry-After = ceil((start + windowMs - now)/1000)` seconds; the first
request arriving strictly more than `windowMs` after the window start
resets the counter and is admitted; and any run that stays inside one
window admits at most `maxRequests` requests. -/
theorem claim_C6_amended :
    (researchRateLimitMax = 20 ∧ historyRateLimitMax = 60 ∧ rateLimitWindowMs = 60000) ∧
    (∀ maxRequests windowMs c s t, s ≤ t → t - s ≤ windowMs → maxRequests ≤ c →
      rlStep maxRequests windowMs (some ⟨c, s⟩) t =
        (.limited ((s + windowMs - t + 999) / 1000), ⟨c + 1, s⟩)) ∧
    (∀ maxRequests windowMs c s t, windowMs < t - s →
      rlStep maxRequests windowMs (some ⟨c, s⟩) t = (.admitted, ⟨1, t⟩)) ∧
    (∀ maxRequests windowMs t0 ts, 0 < maxRequests →
      (∀ t ∈ ts, t0 ≤ t ∧ t - t0 ≤ windowMs) →
      (rlRun maxRequests windowMs (t0 :: ts)).countP isAdmitted ≤ maxRequests) := by
  refine ⟨⟨rfl, rfl, rfl⟩, ?_, ?_, ?_⟩
  · intro maxRequests windowMs c s t hst hwin hcm
    have hnot : ¬ (t - s > windowMs) := by omega
    have hc : c + 1 > maxRequests := by omega
    simp [rlStep, hnot, hc]
  · intro maxRequests windowMs c s t hgt
    simp [rlStep, hgt]
  · intro maxRequests windowMs t0 ts hpos hts
    have hbound := rlRunFrom_admitted_bound maxRequests windowMs t0 ts hts 1
    simp only [rlRun, rlRunFrom, rlStep, List.countP_cons]
    simp [isAdmitted]
    omega

/-- C6 witness: the amended theorem applied at the documented constants:
the 21st in-window request is limited with `Retry-After` 60, a request
after the window resets, and a short in-window run stays under the cap. -/
theorem claim_C6_witness :
    rlStep 20 60000 (some ⟨20, 0⟩) 30 = (.limited 60, ⟨21, 0⟩) ∧
    rlStep 20 60000 (some ⟨7, 0⟩) 60001 = (.admitted, ⟨1, 60001⟩) ∧
    (rlRun 20 60000 [0, 1, 2]).countP isAdmitted ≤ 20 :=
  ⟨claim_C6_amended.2.1 20 60000 20 0 30 (by omega) (by omega) (by omega),
   claim_C6_amended.2.2.1 20 60000 7 0 60001 (by omega),
   claim_C6_amended.2.2.2 20 60000 0 [1, 2] (by omega) (by decide)⟩

/-- A request trace that straddles a window reset: the first request opens
the fixed window at 0, nineteen more arrive just before it expires, and two
arrive just after the reset. -/
def c6Times : List Nat :=
  0 :: ((List.range 19).map (fun i => 59981 + i)) ++ [60001, 60002]

/-- C6 counterexample: twenty-one requests all lying inside one rolling
60000 ms span are all admitted, because they straddle a fixed-window reset;
the claim's rolling-window reading requires the 21st to get 429. -/
theorem claim_C6_counterexample :
    rlRun 20 60000 c6Times = List.replicate 22 RLOutcome.admitted ∧
    (c6Times.drop 1).length = 21 ∧
    (∀ t ∈ c6Times.drop 1, 59981 ≤ t ∧ t < 59981 + 60000) := by
  decide


/-- The mode check of the validator: absent or empty (falsy) or allowed. -/
def modeOk : Option String → Bool
  | none => true
  | some m => (m == "") || decide (m ∈ allowedModes)

/-- Dropping a prefix of a constant list whose element fails the predicate
is the identity. -/
theorem dropWhile_replicate_false (p : Char → Bool) (a : Char) (hp : p a = false)
    (n : Nat) : List.dropWhile p (List.replicate n a) = List.replicate n a := by
  cases n with
  | zero => rfl
  | succ k => simp [List.replicate_succ, List.dropWhile_cons, hp]

/-- Any non-empty query whose trimmed length exceeds 2000 is rejected with
the length message. -/
theorem validate_too_long (q : String) (hq : ¬ q = "")
    (hlen : 2000 < (trimChars q.data).length) :
    validateResearchInput (some q) none =
      .rejected "Query must be at most 2000 characters." := by
  unfold validateResearchInput
  dsimp only
  rw [if_neg hq, if_neg (by omega : ¬ (trimChars q.data).length < 3),
    if_pos (by omega : (trimChars q.data).length > 2000)]

/-- C7 (corrected): validation accepts exactly the nonempty queries whose
trimmed length lies in [3, 2000] and that match none of the code's actual
patterns — `<script\b` (word boundary after `script`), `javascript:` and
`on\w+\s*=` (optional whitespace before `=`) — with the mode accepted when
absent, empty or in {quick, standard, deep}; length 2 is rejected, length 3
accepted, length 2001 rejected, `<script>` rejected, and an omitted mode
defaults to `standard`. -/
theorem claim_C7_amended :
    (∀ q ms, codeAccepts q ms =
      (!(q == "") && decide (3 ≤ (trimChars q.data).length) &&
       decide ((trimChars q.data).length ≤ 2000) &&
       !containsScriptTag ⟨trimChars q.data⟩ && !containsJsColon ⟨trimChars q.data⟩ &&
       !containsOnAttr ⟨trimChars q.data⟩ && modeOk ms)) ∧
    validateResearchInput (some "ab") none = .rejected "Query must be at least 3 characters." ∧
    validateResearchInput (some "abc") none = .accepted "abc" .standard ∧
    validateResearchInput (some ⟨List.replicate 2001 'a'⟩) none =
      .rejected "Query must be at most 2000 characters." ∧
    validateResearchInput (some "<script>x</script>stuff") none =
      .rejected "Query contains disallowed content." ∧
    (∀ q t m, validateResearchInput (some q) none = .accepted t m → m = .standard) := by
  refine ⟨?_, by decide, by decide, ?_, by decide, ?_⟩
  · intro q ms
    have e1 : ∀ n : Nat, (decide (3 ≤ n)) = !(decide (n < 3)) := by
      intro n
      by_cases hn : n < 3 <;> simp [hn] <;> omega
    have e2 : ∀ n : Nat, (decide (n ≤ 2000)) = !(decide (n > 2000)) := by
      intro n
      by_cases hn : n > 2000 <;> simp [hn] <;> omega
    unfold codeAccepts validateResearchInput
    by_cases hq : q = ""
    · simp [hq]
    · simp only [hq, if_false, ite_false, e1, e2]
      rcases ms with _ | m
      · dsimp only
        split_ifs with h1 h2 h3
        · simp [hq, h1]
        · simp [hq, h1, h2]
        · simp only [Bool.or_eq_true] at h3
          rcases h3 with (h | h) | h <;> simp [h]
        · simp only [Bool.or_eq_true, not_or] at h3
          obtain ⟨⟨ha, hb⟩, hc⟩ := h3
          simp [hq, h1, h2, ha, hb, hc, modeOk]
      · dsimp only
        split_ifs with h1 h2 h3 h4 h5
        · simp [hq, h1]
        · simp [hq, h1, h2]
        · simp only [Bool.or_eq_true] at h3
          rcases h3 with (h | h) | h <;> simp [h]
        · simp only [Bool.or_eq_true, not_or] at h3
          obtain ⟨⟨ha, hb⟩, hc⟩ := h3
          simp [hq, h1, h2, ha, hb, hc, modeOk, h4]
        · simp only [Bool.or_eq_true, not_or] at h3
          obtain ⟨⟨ha, hb⟩, hc⟩ := h3
          simp [hq, h1, h2, ha, hb, hc, modeOk, h5]
        · simp only [Bool.or_eq_true, not_or] at h3
          obtain ⟨⟨ha, hb⟩, hc⟩ := h3
          simp [hq, h1, h2, ha, hb, hc, modeOk, h4, h5]
  · have htrim : trimChars (List.replicate 2001 'a') = List.replicate 2001 'a' := by
      unfold trimChars
      rw [dropWhile_replicate_false _ _ (by decide), List.reverse_replicate,
        dropWhile_replicate_false _ _ (by decide), List.reverse_replicate]
    have hne : ¬ (⟨List.replicate 2001 'a'⟩ : String) = "" := by
      intro hc
      have hz : ("" : String).data.length = 0 := by decide
      have h1 := congrArg (fun s : String => s.data.length) hc
      dsimp only at h1
      rw [List.length_replicate, hz] at h1
      omega
    have hlen : 2000 < (trimChars (⟨List.replicate 2001 'a'⟩ : String).data).length := by
      have hdata : (⟨List.replicate 2001 'a'⟩ : String).data = List.replicate 2001 'a' := rfl
      rw [hdata, htrim, List.length_replicate]
      omega
    exact validate_too_long _ hne hlen
  · intro q t m hacc
    simp only [validateResearchInput] at hacc
    by_cases hq : q = ""
    · rw [if_pos hq] at hacc
      exact (ValidationOutcome.noConfusion hacc)
    · rw [if_neg hq] at hacc
      split_ifs at hacc <;>
        first
          | exact (ValidationOutcome.noConfusion hacc)
          | (injection hacc with hh1 hh2
             exact hh2.symm)

/-- C7 counterexample: `onload = yes` (whitespace before `=`) matches none
of the claim's quoted patterns yet the code rejects it, and `<scripty abc`
matches the claim's bare `<script` substring yet the code accepts it. -/
theorem claim_C7_counterexample :
    claimAccepts "click onload = yes" = true ∧
    validateResearchInput (some "click onload = yes") none =
      .rejected "Query contains disallowed content." ∧
    specScriptPat "<scripty abc" = true ∧
    validateResearchInput (some "<scripty abc") none =
      .accepted "<scripty abc" .standard := by
  decide

/-- C7 witness: the amended theorem's mode-default implication applied to
the concrete accepted query. -/
theorem claim_C7_witness :
    validateResearchInput (some "abc") none = .accepted "abc" .standard ∧
    Mode.standard = Mode.standard :=
  ⟨by decide, claim_C7_amended.2.2.2.2.2 "abc" "abc" Mode.standard (by decide)⟩


/-- A cache hit does not mutate the store. -/
theorem cacheGet_hit_store {α : Type} (h : String → String) (store : CacheStore α)
    (q : String) (m : Mode) (now : Nat) (v : α)
    (hhit : (cacheGet h store q m now).1 = some v) :
    (cacheGet h store q m now).2 = store := by
  unfold cacheGet at hhit ⊢
  rcases hget : storeGet store (makeKey h q m) with _ | entry <;>
    simp only [hget] at hhit ⊢
  split_ifs at hhit ⊢ <;> simp_all

/-- C5 (confirmed): when the (query, mode) pair hits the cache, POST
/api/research responds with the cached payload marked `fromCache = true`,
performs no database write at all (the folded database is unchanged), and
leaves the cache store as it was. -/
theorem claim_C5_cache_hit (h : String → String) (db : DB)
    (cache : CacheStore ResearchPayload) (q : String) (m : Mode) (o : Oracle)
    (v : ResearchPayload)
    (hhit : (cacheGet h cache q m (o.apiNow 0)).1 = some v) :
    (postResearch h cache q m o).1 = [.respond (.okPayload v true)] ∧
    applyTrace db (postResearch h cache q m o).1 = db ∧
    (postResearch h cache q m o).2 = cache := by
  have hstore := cacheGet_hit_store h cache q m (o.apiNow 0) v hhit
  refine ⟨?_, ?_, ?_⟩
  · simp [postResearch, hhit]
  · simp [postResearch, hhit, applyTrace, applyEv]
  · simp [postResearch, hhit, hstore]

/-- A payload already cached for the witness run. -/
def c5Payload : ResearchPayload := ⟨1, "r", [], ⟨1, 1, 2⟩, 5, .quick, "q"⟩

/-- A store holding `c5Payload` under ("q", quick), written at instant 0. -/
def c5Cache : CacheStore ResearchPayload := cacheSet (fun s => s) [] "q" .quick c5Payload 0

/-- C5 witness: the cache-hit theorem applied to a store that holds a
payload written at instant 0 and read within its TTL. -/
theorem claim_C5_witness :
    (cacheGet (fun s => s) c5Cache "q" .quick (demoOracle.apiNow 0)).1 = some c5Payload ∧
    (postResearch (fun s => s) c5Cache "q" .quick demoOracle).1 =
      [.respond (.okPayload c5Payload true)] ∧
    applyTrace emptyDb (postResearch (fun s => s) c5Cache "q" .quick demoOracle).1 =
      emptyDb :=
  ⟨by decide,
   (claim_C5_cache_hit (fun s => s) emptyDb c5Cache "q" .quick demoOracle c5Payload
      (by decide)).1,
   (claim_C5_cache_hit (fun s => s) emptyDb c5Cache "q" .quick demoOracle c5Payload
      (by decide)).2.1⟩


theorem applyTrace_append (db : DB) (l1 l2 : List Ev) :
    applyTrace db (l1 ++ l2) = applyTrace (applyTrace db l1) l2 := by
  simp [applyTrace, List.foldl_append]

theorem mem_of_mem_enum {α : Type} (i : Nat) (e : α) (l : List α)
    (h : (i, e) ∈ l.enum) : e ∈ l :=
  mem_of_mem_enumFrom 0 i e l (by simpa [List.enum] using h)

/-- Every effect the handler derives from the engine trace leaves sessions,
reports and errors untouched. -/
theorem mid_harmless (q : String) (sid : Nat) (o : Oracle) (k : Option Nat) :
    ∀ e ∈ routeProgress k (executeDeep q sid o).1.enum, isHarmlessEv e = true := by
  intro e he
  rcases routeProgress_mem k _ e he with ⟨p, rfl⟩ | ⟨i, hi⟩
  · rfl
  · exact engine_harmless e (executeDeep_engineEvs q sid o e (mem_of_mem_enum i e _ hi))

/-- Folding a failed synchronous run: session insert, an all-harmless engine
prefix, the error log and the 500 response. -/
theorem postFail_components (db : DB) (sess : Session) (eng : List Ev) (e : ErrorRow)
    (heng : ∀ x ∈ eng, isHarmlessEv x = true) :
    (applyTrace db (Ev.sqlInsertSession sess ::
        (eng ++ [Ev.sqlInsertError e, Ev.respond .internalError]))).sessions =
      db.sessions ++ [sess] ∧
    (applyTrace db (Ev.sqlInsertSession sess ::
        (eng ++ [Ev.sqlInsertError e, Ev.respond .internalError]))).errors =
      db.errors ++ [e] ∧
    (applyTrace db (Ev.sqlInsertSession sess ::
        (eng ++ [Ev.sqlInsertError e, Ev.respond .internalError]))).reports =
      db.reports := by
  rw [show applyTrace db (Ev.sqlInsertSession sess ::
      (eng ++ [Ev.sqlInsertError e, Ev.respond .internalError])) =
    applyTrace (applyEv db (Ev.sqlInsertSession sess))
      (eng ++ [Ev.sqlInsertError e, Ev.respond .internalError]) from rfl,
    applyTrace_append]
  have h1 := applyTrace_harmless (applyEv db (Ev.sqlInsertSession sess)) eng heng
  have h2 : ∀ X : DB,
      applyTrace X [Ev.sqlInsertError e, Ev.respond .internalError] =
        { X with errors := X.errors ++ [e] } := by
    intro X
    simp [applyTrace, applyEv]
  rw [h2]
  refine ⟨?_, ?_, ?_⟩
  · dsimp only
    rw [h1.1]
    simp [applyEv]
  · dsimp only
    rw [h1.2.2]
    simp [applyEv]
  · dsimp only
    rw [h1.2.1]
    simp [applyEv]

/-- The effect of a failed deep stream run on the database: the session is
marked failed and an ErrorEntry with the session id is appended, while the
reports table is untouched (regardless of a client disconnect). -/
theorem streamFail_components :
    ∀ (db : DB) (id : Nat) (s : Session) (o : Oracle) (err : JsError) (k : Option Nat),
      findSession db id = some s → s.status ≠ .completed →
      (executeDeep s.query s.id o).2 = .error err →
      (applyTrace db (streamHandler db id o k)).errors =
        db.errors ++ [⟨some s.id, err.message, some err.stack⟩] ∧
      (applyTrace db (streamHandler db id o k)).sessions =
        db.sessions.map (fun x => if x.id = s.id then { x with status := .failed } else x) ∧
      (applyTrace db (streamHandler db id o k)).reports = db.reports := by
  intro db id s o err k hfind hnc herr
  have htr : streamHandler db id o k =
      startingEvent ::
        (routeProgress k (executeDeep s.query s.id o).1.enum ++
          ([Ev.sqlInsertError ⟨some s.id, err.message, some err.stack⟩,
            Ev.sqlUpdateFailed s.id] ++
            (if abortedAt k (executeDeep s.query s.id o).1.length then []
             else [Ev.sseWrite "error" (.errorData err.message)]))) := by
    simp only [streamHandler, hfind]
    rw [if_neg hnc]
    simp only [streamRun, herr]
    simp [List.append_assoc]
  rw [htr]
  have hstart : applyEv db startingEvent = db := rfl
  rw [show applyTrace db (startingEvent :: _) =
      applyTrace (applyEv db startingEvent)
        (routeProgress k (executeDeep s.query s.id o).1.enum ++
          ([Ev.sqlInsertError ⟨some s.id, err.message, some err.stack⟩,
            Ev.sqlUpdateFailed s.id] ++
            (if abortedAt k (executeDeep s.query s.id o).1.length then []
             else [Ev.sseWrite "error" (.errorData err.message)]))) from rfl,
    hstart, applyTrace_append, applyTrace_append]
  have hmid := applyTrace_harmless db
    (routeProgress k (executeDeep s.query s.id o).1.enum) (mid_harmless s.query s.id o k)
  set db2 := applyTrace db (routeProgress k (executeDeep s.query s.id o).1.enum) with hdb2
  have hdb3 : applyTrace db2
      [Ev.sqlInsertError ⟨some s.id, err.message, some err.stack⟩,
       Ev.sqlUpdateFailed s.id] =
      { db2 with
        errors := db2.errors ++ [⟨some s.id, err.message, some err.stack⟩],
        sessions := db2.sessions.map
          (fun x => if x.id = s.id then { x with status := .failed } else x) } := by
    simp [applyTrace, applyEv]
  rw [hdb3]
  have htail := applyTrace_harmless
    { db2 with
      errors := db2.errors ++ [⟨some s.id, err.message, some err.stack⟩],
      sessions := db2.sessions.map
        (fun x => if x.id = s.id then { x with status := .failed } else x) }
    (if abortedAt k (executeDeep s.query s.id o).1.length then []
     else [Ev.sseWrite "error" (.errorData err.message)])
    (by split <;> simp [isHarmlessEv])
  refine ⟨?_, ?_, ?_⟩
  · rw [htail.2.2]
    simp [hmid.2.2]
  · rw [htail.1]
    simp [hmid.1]
  · rw [htail.2.1]
    simp [hmid.2.1]

/-- C1 (corrected): only the deep-mode stream path implements the claimed
failure handling — on an engine error the session is updated to `failed`
and an ErrorEntry carrying the session id, message and stack is appended,
with no Report row.  A quick or standard run that fails after its session
was created leaves the session in status `running` (never `failed`): the
central error handler appends an ErrorEntry with a NULL session id and
responds 500, and no code path updates the session. -/
theorem claim_C1_amended :
    (∀ (db : DB) (id : Nat) (s : Session) (o : Oracle) (err : JsError) (k : Option Nat),
      findSession db id = some s → s.status ≠ .completed →
      (executeDeep s.query s.id o).2 = .error err →
      (applyTrace db (streamHandler db id o k)).errors =
        db.errors ++ [⟨some s.id, err.message, some err.stack⟩] ∧
      (applyTrace db (streamHandler db id o k)).sessions =
        db.sessions.map (fun x => if x.id = s.id then { x with status := .failed } else x) ∧
      (applyTrace db (streamHandler db id o k)).reports = db.reports) ∧
    (∀ (h : String → String) (db : DB) (cache : CacheStore ResearchPayload)
        (q : String) (m : Mode) (o : Oracle) (err : JsError),
      m ≠ .deep →
      (cacheGet h cache q m (o.apiNow 0)).1 = none →
      (if m = .quick then executeQuick q o.newSessionId o
       else executeStandard q o.newSessionId o).2 = .error err →
      (applyTrace db (postResearch h cache q m o).1).sessions =
        db.sessions ++ [⟨o.newSessionId, q, m, .running, none, none, o.dbNow⟩] ∧
      (applyTrace db (postResearch h cache q m o).1).errors =
        db.errors ++ [⟨none, err.message, some err.stack⟩] ∧
      (applyTrace db (postResearch h cache q m o).1).reports = db.reports ∧
      Ev.respond .internalError ∈ (postResearch h cache q m o).1) := by
  constructor
  · exact streamFail_components
  · intro h db cache q m o err hdeep hmiss herr
    cases m with
    | deep => exact absurd rfl hdeep
    | quick =>
      simp only [if_pos rfl] at herr
      have htr : (postResearch h cache q .quick o).1 =
          Ev.sqlInsertSession ⟨o.newSessionId, q, .quick, .running, none, none, o.dbNow⟩ ::
            ((executeQuick q o.newSessionId o).1 ++
              [Ev.sqlInsertError ⟨none, err.message, some err.stack⟩,
               Ev.respond .internalError]) := by
        simp only [postResearch, hmiss]
        simp only [if_pos rfl, herr]
        simp
      rw [htr]
      have hcomp := postFail_components db
        ⟨o.newSessionId, q, .quick, .running, none, none, o.dbNow⟩
        (executeQuick q o.newSessionId o).1
        ⟨none, err.message, some err.stack⟩
        (fun e he => engine_harmless e (executeQuick_engineEvs q o.newSessionId o e he))
      exact ⟨hcomp.1, hcomp.2.1, hcomp.2.2, by simp⟩
    | standard =>
      simp only [reduceCtorEq, if_false] at herr
      have htr : (postResearch h cache q .standard o).1 =
          Ev.sqlInsertSession ⟨o.newSessionId, q, .standard, .running, none, none, o.dbNow⟩ ::
            ((executeStandard q o.newSessionId o).1 ++
              [Ev.sqlInsertError ⟨none, err.message, some err.stack⟩,
               Ev.respond .internalError]) := by
        simp only [postResearch, hmiss]
        simp only [reduceCtorEq, if_false, herr]
        simp
      rw [htr]
      have hcomp := postFail_components db
        ⟨o.newSessionId, q, .standard, .running, none, none, o.dbNow⟩
        (executeStandard q o.newSessionId o).1
        ⟨none, err.message, some err.stack⟩
        (fun e he => engine_harmless e (executeStandard_engineEvs q o.newSessionId o e he))
      exact ⟨hcomp.1, hcomp.2.1, hcomp.2.2, by simp⟩

/-- A database holding one deep session in status `running` with id 9. -/
def dbDeepRunning : DB := ⟨[⟨9, "qq", .deep, .running, none, none, 0⟩], [], [], []⟩

/-- C1 counterexample: a failing quick run leaves its freshly created
session in status `running` and logs the error with no session reference,
contradicting the claim that every failed run marks its session `failed`
with an ErrorEntry for that session. -/
theorem claim_C1_counterexample :
    (applyTrace emptyDb
        (postResearch (fun s => s) [] "boom query" .quick demoOracleLLMDown).1).sessions =
      [⟨7, "boom query", .quick, .running, none, none, 5⟩] ∧
    (applyTrace emptyDb
        (postResearch (fun s => s) [] "boom query" .quick demoOracleLLMDown).1).errors =
      [⟨none, "LLM provider failed", some "stacktrace"⟩] ∧
    Ev.respond .internalError ∈
      (postResearch (fun s => s) [] "boom query" .quick demoOracleLLMDown).1 ∧
    Status.running ≠ Status.failed := by
  decide

/-- C1 witness: the amended theorem applied to a concrete failing deep
stream (part one) and a concrete failing quick run (part two). -/
theorem claim_C1_witness :
    ((applyTrace dbDeepRunning (streamHandler dbDeepRunning 9 demoOracleLLMDown none)).errors =
        dbDeepRunning.errors ++ [⟨some 9, "LLM provider failed", some "stacktrace"⟩] ∧
      (applyTrace dbDeepRunning (streamHandler dbDeepRunning 9 demoOracleLLMDown none)).sessions =
        dbDeepRunning.sessions.map
          (fun x => if x.id = 9 then { x with status := .failed } else x) ∧
      (applyTrace dbDeepRunning (streamHandler dbDeepRunning 9 demoOracleLLMDown none)).reports =
        dbDeepRunning.reports) ∧
    ((applyTrace emptyDb
        (postResearch (fun s => s) [] "boom" .quick demoOracleLLMDown).1).sessions =
        emptyDb.sessions ++ [⟨7, "boom", .quick, .running, none, none, 5⟩] ∧
      (applyTrace emptyDb
        (postResearch (fun s => s) [] "boom" .quick demoOracleLLMDown).1).errors =
        emptyDb.errors ++ [⟨none, "LLM provider failed", some "stacktrace"⟩] ∧
      (applyTrace emptyDb
        (postResearch (fun s => s) [] "boom" .quick demoOracleLLMDown).1).reports =
        emptyDb.reports ∧
      Ev.respond .internalError ∈
        (postResearch (fun s => s) [] "boom" .quick demoOracleLLMDown).1) :=
  ⟨claim_C1_amended.1 dbDeepRunning 9 ⟨9, "qq", .deep, .running, none, none, 0⟩
      demoOracleLLMDown ⟨"LLM provider failed", "stacktrace"⟩ none
      (by decide) (by decide) (by decide),
   claim_C1_amended.2 (fun s => s) emptyDb [] "boom" .quick demoOracleLLMDown
      ⟨"LLM provider failed", "stacktrace"⟩ (by decide) (by decide) (by decide)⟩


/-- A database holding one deep session in status `failed` with id 9. -/
def dbDeepFailed : DB := ⟨[⟨9, "qq", .deep, .failed, none, none, 0⟩], [], [], []⟩

/-- C3 counterexample: the POST handler inserts the session directly with
status `running` (it is never `pending`), and a `failed` session is not
terminal — a new stream request on it re-runs the pipeline and moves it to
`completed`. -/
theorem claim_C3_counterexample :
    (postResearch (fun s => s) [] "abc" .quick demoOracle).1.head? =
      some (.sqlInsertSession ⟨7, "abc", .quick, .running, none, none, 5⟩) ∧
    Status.running ≠ Status.pending ∧
    (applyTrace dbDeepFailed (streamHandler dbDeepFailed 9 demoOracle none)).sessions.map
      (fun s => s.status) = [Status.completed] := by
  decide

/-- C3 (corrected): every session is created in status `running` — the
INSERT names the status explicitly, bypassing the schema's `pending`
default — and that insert is the first write of the request, before any
phase row.  The terminal update follows the last phase write in every run:
a successful quick run's trace is exactly session insert, LLM call, phase
row, report insert, completed update, cache store, response; a successful
standard run's trace is exactly session insert, search, phase row, LLM
call, phase row, report insert, completed update, cache store, response;
a deep stream run's trace puts all its phase writes inside the routed
engine segment, which wholly precedes the completed update (on success)
or the failed update (on an engine error).  `completed` is final: the
stream handler answers a completed session with a JSON snapshot and writes
nothing.  `failed` is not final (see the counterexample). -/
theorem claim_C3_amended :
    (∀ (h : String → String) (cache : CacheStore ResearchPayload) (q : String)
        (m : Mode) (o : Oracle),
      (cacheGet h cache q m (o.apiNow 0)).1 = none →
      (postResearch h cache q m o).1.head? =
        some (.sqlInsertSession ⟨o.newSessionId, q, m, .running, none, none, o.dbNow⟩)) ∧
    (∀ (h : String → String) (cache : CacheStore ResearchPayload) (q : String)
        (o : Oracle) (r : LLMResult),
      (cacheGet h cache q .quick (o.apiNow 0)).1 = none →
      o.llm .quickCall = .ok r →
      (postResearch h cache q .quick o).1 =
        [.sqlInsertSession ⟨o.newSessionId, q, .quick, .running, none, none, o.dbNow⟩,
         .llmCall .quickCall,
         .sqlInsertPhase ⟨o.newSessionId, "quick_synthesis", o.clock 1 - o.clock 0,
           r.tokens.total, .modelName "gpt-4o-mini"⟩,
         .sqlInsertReport ⟨o.newSessionId, r.content, []⟩,
         .sqlUpdateCompleted o.newSessionId (o.apiNow 2 - o.apiNow 1) r.tokens.total,
         .cacheStore q .quick
           ⟨o.newSessionId, r.content, [], r.tokens, o.apiNow 2 - o.apiNow 1, .quick, q⟩
           (o.apiNow 3),
         .respond (.okPayload
           ⟨o.newSessionId, r.content, [], r.tokens, o.apiNow 2 - o.apiNow 1, .quick, q⟩
           false)]) ∧
    (∀ (h : String → String) (cache : CacheStore ResearchPayload) (q : String)
        (o : Oracle) (r : LLMResult),
      (cacheGet h cache q .standard (o.apiNow 0)).1 = none →
      o.llm .standardCall = .ok r →
      (postResearch h cache q .standard o).1 =
        [.sqlInsertSession ⟨o.newSessionId, q, .standard, .running, none, none, o.dbNow⟩,
         .searchCalls [q],
         .sqlInsertPhase ⟨o.newSessionId, "source_discovery", o.clock 2 - o.clock 1, 0,
           .sourcesFound (o.search q).length⟩,
         .llmCall .standardCall,
         .sqlInsertPhase ⟨o.newSessionId, "structured_synthesis", o.clock 4 - o.clock 3,
           r.tokens.total, .modelName "gpt-4o-mini"⟩,
         .sqlInsertReport ⟨o.newSessionId, r.content,
           (o.search q).enum.map (fun p => Citation.mk (p.1 + 1) p.2.title p.2.url p.2.score)⟩,
         .sqlUpdateCompleted o.newSessionId (o.apiNow 2 - o.apiNow 1)
           (addTokens zeroTokens r.tokens).total,
         .cacheStore q .standard
           ⟨o.newSessionId, r.content,
            (o.search q).enum.map (fun p => Citation.mk (p.1 + 1) p.2.title p.2.url p.2.score),
            addTokens zeroTokens r.tokens, o.apiNow 2 - o.apiNow 1, .standard, q⟩
           (o.apiNow 3),
         .respond (.okPayload
           ⟨o.newSessionId, r.content,
            (o.search q).enum.map (fun p => Citation.mk (p.1 + 1) p.2.title p.2.url p.2.score),
            addTokens zeroTokens r.tokens, o.apiNow 2 - o.apiNow 1, .standard, q⟩
           false)]) ∧
    (∀ (db : DB) (id : Nat) (s : Session) (o : Oracle) (r : EngineResult),
      findSession db id = some s → s.status ≠ .completed →
      (executeDeep s.query s.id o).2 = .ok r →
      streamHandler db id o none =
        startingEvent ::
          (routeProgress none (executeDeep s.query s.id o).1.enum ++
            [.sqlInsertReport ⟨s.id, r.report, r.citations⟩,
             .sqlUpdateCompleted s.id r.latencyMs r.tokens.total,
             .cacheStore s.query s.mode
               ⟨s.id, r.report, r.citations, r.tokens, r.latencyMs, s.mode, s.query⟩
               (o.apiNow 3),
             .sseWrite "complete"
               (.completeData s.id r.report r.citations r.tokens r.latencyMs)]) ∧
      (∀ p, Ev.sqlInsertPhase p ∈ streamHandler db id o none →
        Ev.sqlInsertPhase p ∈ routeProgress none (executeDeep s.query s.id o).1.enum)) ∧
    (∀ (db : DB) (id : Nat) (s : Session) (o : Oracle) (err : JsError) (k : Option Nat),
      findSession db id = some s → s.status ≠ .completed →
      (executeDeep s.query s.id o).2 = .error err →
      streamHandler db id o k =
        startingEvent ::
          (routeProgress k (executeDeep s.query s.id o).1.enum ++
            ([.sqlInsertError ⟨some s.id, err.message, some err.stack⟩,
              .sqlUpdateFailed s.id] ++
              (if abortedAt k (executeDeep s.query s.id o).1.length then []
               else [.sseWrite "error" (.errorData err.message)]))) ∧
      (∀ p, Ev.sqlInsertPhase p ∈ streamHandler db id o k →
        Ev.sqlInsertPhase p ∈ routeProgress k (executeDeep s.query s.id o).1.enum)) ∧
    (∀ (db : DB) (id : Nat) (s : Session) (o : Oracle) (k : Option Nat),
      findSession db id = some s → s.status = .completed →
      streamHandler db id o k =
        [.respond (.completedSnapshot id ((findReport db id).map (fun r => r.content))
          (((findReport db id).map (fun r => r.citations)).getD []))] ∧
      applyTrace db (streamHandler db id o k) = db) := by
  refine ⟨?_, ?_, ?_, ?_, ?_, ?_⟩
  · intro h cache q m o hmiss
    cases m with
    | deep => simp [postResearch, hmiss]
    | quick =>
      rcases hout : (executeQuick q o.newSessionId o).2 with err | r <;>
        simp [postResearch, hmiss, hout]
    | standard =>
      rcases hout : (executeStandard q o.newSessionId o).2 with err | r <;>
        simp [postResearch, hmiss, hout]
  · intro h cache q o r hmiss hok
    simp [postResearch, hmiss, executeQuick, hok]
  · intro h cache q o r hmiss hok
    simp [postResearch, hmiss, executeStandard, hok]
  · intro db id s o r hfind hnc hout
    have hab : abortedAt none (executeDeep s.query s.id o).1.length = false := rfl
    have htr : streamHandler db id o none =
        startingEvent ::
          (routeProgress none (executeDeep s.query s.id o).1.enum ++
            [.sqlInsertReport ⟨s.id, r.report, r.citations⟩,
             .sqlUpdateCompleted s.id r.latencyMs r.tokens.total,
             .cacheStore s.query s.mode
               ⟨s.id, r.report, r.citations, r.tokens, r.latencyMs, s.mode, s.query⟩
               (o.apiNow 3),
             .sseWrite "complete"
               (.completeData s.id r.report r.citations r.tokens r.latencyMs)]) := by
      simp only [streamHandler, hfind]
      rw [if_neg hnc]
      simp only [streamRun, hout]
      simp [hab]
    refine ⟨htr, ?_⟩
    intro p hp
    rw [htr] at hp
    rcases List.mem_cons.mp hp with hh | hh
    · simp [startingEvent] at hh
    · rcases List.mem_append.mp hh with hh | hh
      · exact hh
      · simp at hh
  · intro db id s o err k hfind hnc hout
    have htr : streamHandler db id o k =
        startingEvent ::
          (routeProgress k (executeDeep s.query s.id o).1.enum ++
            ([.sqlInsertError ⟨some s.id, err.message, some err.stack⟩,
              .sqlUpdateFailed s.id] ++
              (if abortedAt k (executeDeep s.query s.id o).1.length then []
               else [.sseWrite "error" (.errorData err.message)]))) := by
      simp only [streamHandler, hfind]
      rw [if_neg hnc]
      simp only [streamRun, hout]
      simp [List.append_assoc]
    refine ⟨htr, ?_⟩
    intro p hp
    rw [htr] at hp
    rcases List.mem_cons.mp hp with hh | hh
    · simp [startingEvent] at hh
    · rcases List.mem_append.mp hh with hh | hh
      · exact hh
      · rcases List.mem_append.mp hh with hh | hh
        · simp at hh
        · revert hh
          split <;> simp
  · intro db id s o k hfind hcomp
    have hh : streamHandler db id o k =
        [.respond (.completedSnapshot id ((findReport db id).map (fun r => r.content))
          (((findReport db id).map (fun r => r.citations)).getD []))] := by
      simp only [streamHandler, hfind]
      rw [if_pos hcomp]
    exact ⟨hh, by rw [hh]; simp [applyTrace, applyEv]⟩

/-- A database holding one completed session with id 3 and its report. -/
def dbCompleted : DB :=
  ⟨[⟨3, "done", .deep, .completed, some 10, some 20, 0⟩],
   [], [⟨3, "R", []⟩], []⟩

/-- C3 witness: the amended theorem applied at a fresh quick run, a fresh
standard run, a successful deep stream, a failing deep stream, and a
completed session. -/
theorem claim_C3_witness :
    (postResearch (fun s => s) [] "abc" .quick demoOracle).1.head? =
      some (.sqlInsertSession ⟨7, "abc", .quick, .running, none, none, 5⟩) ∧
    (postResearch (fun s => s) [] "abc" .quick demoOracle).1 =
      [.sqlInsertSession ⟨7, "abc", .quick, .running, none, none, 5⟩,
       .llmCall .quickCall,
       .sqlInsertPhase ⟨7, "quick_synthesis", 1, 120, .modelName "gpt-4o-mini"⟩,
       .sqlInsertReport ⟨7, "QUICK", []⟩,
       .sqlUpdateCompleted 7 1 120,
       .cacheStore "abc" .quick ⟨7, "QUICK", [], ⟨70, 50, 120⟩, 1, .quick, "abc"⟩ 1003,
       .respond (.okPayload ⟨7, "QUICK", [], ⟨70, 50, 120⟩, 1, .quick, "abc"⟩ false)] ∧
    (postResearch (fun s => s) [] "std" .standard demoOracle).1 =
      [.sqlInsertSession ⟨7, "std", .standard, .running, none, none, 5⟩,
       .searchCalls ["std"],
       .sqlInsertPhase ⟨7, "source_discovery", 1, 0, .sourcesFound 1⟩,
       .llmCall .standardCall,
       .sqlInsertPhase ⟨7, "structured_synthesis", 1, 140, .modelName "gpt-4o-mini"⟩,
       .sqlInsertReport ⟨7, "STD", [⟨1, "T1", "http://a", 1⟩]⟩,
       .sqlUpdateCompleted 7 1 140,
       .cacheStore "std" .standard
         ⟨7, "STD", [⟨1, "T1", "http://a", 1⟩], ⟨80, 60, 140⟩, 1, .standard, "std"⟩ 1003,
       .respond (.okPayload
         ⟨7, "STD", [⟨1, "T1", "http://a", 1⟩], ⟨80, 60, 140⟩, 1, .standard, "std"⟩ false)] ∧
    streamHandler dbDeepRunning 9 demoOracle none =
      startingEvent ::
        (routeProgress none (executeDeep "qq" 9 demoOracle).1.enum ++
          [.sqlInsertReport ⟨9, "REPORT", [⟨1, "T1", "http://a", 1⟩]⟩,
           .sqlUpdateCompleted 9 25 250,
           .cacheStore "qq" .deep
             ⟨9, "REPORT", [⟨1, "T1", "http://a", 1⟩], ⟨150, 100, 250⟩, 25, .deep, "qq"⟩ 1003,
           .sseWrite "complete"
             (.completeData 9 "REPORT" [⟨1, "T1", "http://a", 1⟩] ⟨150, 100, 250⟩ 25)]) ∧
    streamHandler dbDeepRunning 9 demoOracleLLMDown none =
      startingEvent ::
        (routeProgress none (executeDeep "qq" 9 demoOracleLLMDown).1.enum ++
          ([.sqlInsertError ⟨some 9, "LLM provider failed", some "stacktrace"⟩,
            .sqlUpdateFailed 9] ++
            (if abortedAt none (executeDeep "qq" 9 demoOracleLLMDown).1.length then []
             else [.sseWrite "error" (.errorData "LLM provider failed")]))) ∧
    streamHandler dbCompleted 3 demoOracle none =
      [.respond (.completedSnapshot 3 (some "R") [])] :=
  ⟨claim_C3_amended.1 (fun s => s) [] "abc" .quick demoOracle (by decide),
   claim_C3_amended.2.1 (fun s => s) [] "abc" demoOracle ⟨"QUICK", ⟨70, 50, 120⟩⟩
     (by decide) (by decide),
   claim_C3_amended.2.2.1 (fun s => s) [] "std" demoOracle ⟨"STD", ⟨80, 60, 140⟩⟩
     (by decide) (by decide),
   (claim_C3_amended.2.2.2.1 dbDeepRunning 9 ⟨9, "qq", .deep, .running, none, none, 0⟩
     demoOracle ⟨"REPORT", [⟨1, "T1", "http://a", 1⟩], ⟨150, 100, 250⟩, 25⟩
     (by decide) (by decide) (by decide)).1,
   (claim_C3_amended.2.2.2.2.1 dbDeepRunning 9 ⟨9, "qq", .deep, .running, none, none, 0⟩
     demoOracleLLMDown ⟨"LLM provider failed", "stacktrace"⟩ none
     (by decide) (by decide) (by decide)).1,
   (claim_C3_amended.2.2.2.2.2 dbCompleted 3 ⟨3, "done", .deep, .completed, some 10, some 20, 0⟩
     demoOracle none (by decide) (by decide)).1⟩


theorem engine_not_report (e : Ev) (he : isEngineEv e = true) :
    isReportInsert e = false ∧ isCompletedUpdate e = false := by
  cases e <;> simp_all [isEngineEv, isReportInsert, isCompletedUpdate]

theorem findSession_id (db : DB) (id : Nat) (s : Session)
    (hfind : findSession db id = some s) : s.id = id := by
  have hp := List.find?_some hfind
  simpa using hp

theorem executeDeep_enum_engine (q : String) (sid : Nat) (o : Oracle) :
    ∀ x ∈ (executeDeep q sid o).1.enum, isEngineEv x.2 = true := by
  intro x hx
  obtain ⟨i, e⟩ := x
  exact executeDeep_engineEvs q sid o e (mem_of_mem_enum i e _ hx)

/-- C2 (corrected): when the client disconnects at engine position `k`
(before the run finishes), every SSE `phase` frame written is the synthetic
starting frame or came from a progress emission strictly before `k`; the
handler trace contains no Report insert and no completed update; the
reports table is unchanged and the session never reaches `completed`; BUT
the pipeline is not cancelled — every LLM call and search call of the
engine run still appears in the connection's trace, because no cancellation
signal is threaded into the engine. -/
theorem claim_C2_amended :
    ∀ (db : DB) (id : Nat) (s : Session) (o : Oracle) (k : Nat),
      findSession db id = some s → s.status ≠ .completed →
      (∀ x ∈ db.sessions, x.id = id → x = s) →
      k ≤ (executeDeep s.query s.id o).1.length →
      (∀ p : ProgressEvent,
        Ev.sseWrite "phase" (.progressData p) ∈ streamHandler db id o (some k) →
        p = ⟨"starting", 0, "Starting deep research...", none⟩ ∨
        ∃ i, i < k ∧ (i, Ev.progress p) ∈ (executeDeep s.query s.id o).1.enum) ∧
      (∀ e ∈ streamHandler db id o (some k),
        isReportInsert e = false ∧ isCompletedUpdate e = false) ∧
      (applyTrace db (streamHandler db id o (some k))).reports = db.reports ∧
      (∀ x ∈ (applyTrace db (streamHandler db id o (some k))).sessions,
        x.id = id → x.status ≠ .completed) ∧
      (∀ lbl, Ev.llmCall lbl ∈ (executeDeep s.query s.id o).1 →
        Ev.llmCall lbl ∈ streamHandler db id o (some k)) ∧
      (∀ qs, Ev.searchCalls qs ∈ (executeDeep s.query s.id o).1 →
        Ev.searchCalls qs ∈ streamHandler db id o (some k)) := by
  intro db id s o k hfind hnc huniq hk
  have hsid : s.id = id := findSession_id db id s hfind
  have hab : abortedAt (some k) (executeDeep s.query s.id o).1.length = true := by
    simp [abortedAt, hk]
  have hallenum := executeDeep_enum_engine s.query s.id o
  rcases hout : (executeDeep s.query s.id o).2 with err | r
  -- engine failed: the catch block runs
  · have htr : streamHandler db id o (some k) =
        startingEvent ::
          (routeProgress (some k) (executeDeep s.query s.id o).1.enum ++
            [Ev.sqlInsertError ⟨some s.id, err.message, some err.stack⟩,
             Ev.sqlUpdateFailed s.id]) := by
      simp only [streamHandler, hfind]
      rw [if_neg hnc]
      simp only [streamRun, hout]
      simp [hab]
    have hcomp := streamFail_components db id s o err (some k) hfind hnc hout
    refine ⟨?_, ?_, hcomp.2.2, ?_, ?_, ?_⟩
    · intro p hp
      rw [htr] at hp
      rcases List.mem_cons.mp hp with h | h
      · left
        simp only [startingEvent, Ev.sseWrite.injEq, SsePayload.progressData.injEq,
          true_and] at h
        exact h
      · rcases List.mem_append.mp h with h | h
        · right
          exact routeProgress_sse_src k _ p hallenum h
        · simp at h
    · intro e he
      rw [htr] at he
      rcases List.mem_cons.mp he with h | h
      · subst h
        exact ⟨rfl, rfl⟩
      · rcases List.mem_append.mp h with h | h
        · rcases routeProgress_mem (some k) _ e h with ⟨p, rfl⟩ | ⟨i, hi⟩
          · exact ⟨rfl, rfl⟩
          · exact engine_not_report e (hallenum (i, e) hi)
        · rcases List.mem_cons.mp h with rfl | h2
          · exact ⟨rfl, rfl⟩
          · rcases List.mem_cons.mp h2 with rfl | h3
            · exact ⟨rfl, rfl⟩
            · cases h3
    · intro x hx hxid
      rw [hcomp.2.1] at hx
      rcases List.mem_map.mp hx with ⟨y, hy, hfy⟩
      by_cases hyid : y.id = s.id
      · rw [if_pos hyid] at hfy
        rw [← hfy]
        simp
      · rw [if_neg hyid] at hfy
        subst hfy
        have hyeq : y = s := huniq y hy hxid
        rw [hyeq] at hyid
        exact absurd rfl hyid
    · intro lbl hmem
      rw [htr]
      obtain ⟨i, hi⟩ := mem_enumFrom_of_mem 0 _ _ hmem
      have hkept := routeProgress_keeps (some k) _ i (Ev.llmCall lbl)
        (by simpa [List.enum] using hi) rfl
      exact List.mem_cons.mpr (Or.inr (List.mem_append.mpr (Or.inl hkept)))
    · intro qs hmem
      rw [htr]
      obtain ⟨i, hi⟩ := mem_enumFrom_of_mem 0 _ _ hmem
      have hkept := routeProgress_keeps (some k) _ i (Ev.searchCalls qs)
        (by simpa [List.enum] using hi) rfl
      exact List.mem_cons.mpr (Or.inr (List.mem_append.mpr (Or.inl hkept)))
  -- engine succeeded but the client disconnected: no completion block
  · have htr : streamHandler db id o (some k) =
        startingEvent :: routeProgress (some k) (executeDeep s.query s.id o).1.enum := by
      simp only [streamHandler, hfind]
      rw [if_neg hnc]
      simp only [streamRun, hout]
      simp [hab]
    have hharm : ∀ e ∈ streamHandler db id o (some k), isHarmlessEv e = true := by
      rw [htr]
      intro e he
      rcases List.mem_cons.mp he with h | h
      · subst h; rfl
      · exact mid_harmless s.query s.id o (some k) e h
    have hdbeq := applyTrace_harmless db (streamHandler db id o (some k)) hharm
    refine ⟨?_, ?_, hdbeq.2.1, ?_, ?_, ?_⟩
    · intro p hp
      rw [htr] at hp
      rcases List.mem_cons.mp hp with h | h
      · left
        simp only [startingEvent, Ev.sseWrite.injEq, SsePayload.progressData.injEq,
          true_and] at h
        exact h
      · right
        exact routeProgress_sse_src k _ p hallenum h
    · intro e he
      rw [htr] at he
      rcases List.mem_cons.mp he with h | h
      · subst h
        exact ⟨rfl, rfl⟩
      · rcases routeProgress_mem (some k) _ e h with ⟨p, rfl⟩ | ⟨i, hi⟩
        · exact ⟨rfl, rfl⟩
        · exact engine_not_report e (hallenum (i, e) hi)
    · intro x hx hxid
      rw [hdbeq.1] at hx
      rw [huniq x hx hxid]
      exact hnc
    · intro lbl hmem
      rw [htr]
      obtain ⟨i, hi⟩ := mem_enumFrom_of_mem 0 _ _ hmem
      have hkept := routeProgress_keeps (some k) _ i (Ev.llmCall lbl)
        (by simpa [List.enum] using hi) rfl
      exact List.mem_cons.mpr (Or.inr hkept)
    · intro qs hmem
      rw [htr]
      obtain ⟨i, hi⟩ := mem_enumFrom_of_mem 0 _ _ hmem
      have hkept := routeProgress_keeps (some k) _ i (Ev.searchCalls qs)
        (by simpa [List.enum] using hi) rfl
      exact List.mem_cons.mpr (Or.inr hkept)

/-- C2 counterexample: with the client gone right after the first phase
frame (abort position 1), the run still issues the extraction, validation
and synthesis LLM calls and the search batch; only two SSE frames were
written and no report insert or completed update occurs — the claim's
assertion that outstanding LLM/Search calls are cancelled via their
cancellation signal is false (no signal exists). -/
theorem claim_C2_counterexample :
    Ev.llmCall .extractionCall ∈ streamHandler dbDeepRunning 9 demoOracle (some 1) ∧
    Ev.llmCall .validationCall ∈ streamHandler dbDeepRunning 9 demoOracle (some 1) ∧
    Ev.llmCall .synthesisCall ∈ streamHandler dbDeepRunning 9 demoOracle (some 1) ∧
    Ev.searchCalls ["qq", "s1"] ∈ streamHandler dbDeepRunning 9 demoOracle (some 1) ∧
    (streamHandler dbDeepRunning 9 demoOracle (some 1)).countP isSseEv = 2 ∧
    (streamHandler dbDeepRunning 9 demoOracle (some 1)).countP isReportInsert = 0 ∧
    (streamHandler dbDeepRunning 9 demoOracle (some 1)).countP isCompletedUpdate = 0 := by
  decide

/-- C2 witness: the amended theorem applied to a concrete running deep
session with disconnect position 1. -/
theorem claim_C2_witness :
    (applyTrace dbDeepRunning (streamHandler dbDeepRunning 9 demoOracle (some 1))).reports =
      dbDeepRunning.reports ∧
    Ev.llmCall .synthesisCall ∈ streamHandler dbDeepRunning 9 demoOracle (some 1) :=
  ⟨(claim_C2_amended dbDeepRunning 9 ⟨9, "qq", .deep, .running, none, none, 0⟩ demoOracle 1
      (by decide) (by decide) (by decide) (by decide)).2.2.1,
   (claim_C2_amended dbDeepRunning 9 ⟨9, "qq", .deep, .running, none, none, 0⟩ demoOracle 1
      (by decide) (by decide) (by decide) (by decide)).2.2.2.2.1 .synthesisCall (by decide)⟩


/-- Whatever the engine outcome and disconnect timing, every routed engine
effect appears in the stream handler's trace (for a non-completed session). -/
theorem mid_sub_stream (db : DB) (id : Nat) (s : Session) (o : Oracle)
    (k : Option Nat) (e : Ev)
    (hfind : findSession db id = some s) (hnc : s.status ≠ .completed)
    (hmem : e ∈ routeProgress k (executeDeep s.query s.id o).1.enum) :
    e ∈ streamHandler db id o k := by
  have hh : streamHandler db id o k = streamRun s.id s.query s.mode o k := by
    simp only [streamHandler, hfind]
    rw [if_neg hnc]
  rw [hh]
  unfold streamRun
  rcases hout : (executeDeep s.query s.id o).2 with err | r <;> simp only [hout]
  · exact List.mem_cons.mpr (Or.inr (List.mem_append.mpr
      (Or.inl (List.mem_append.mpr (Or.inl hmem)))))
  · split
    · exact List.mem_cons.mpr (Or.inr hmem)
    · exact List.mem_cons.mpr (Or.inr (List.mem_append.mpr (Or.inl hmem)))

/-- C10 (confirmed): for any stored session whose status is not
`completed` — including `failed` sessions and quick/standard-mode sessions
— a stream request starts a fresh full deep-pipeline execution on that
connection (its first LLM call and all its phase-row inserts appear in the
trace, and on success it performs its own Report insert, appending to the
reports table); the POST handler's deep branch only inserts the session row
and responds, performing no pipeline work; hence each additional stream
connection re-executes the pipeline independently. -/
theorem claim_C10_theorem :
    (∀ (db : DB) (id : Nat) (s : Session) (o : Oracle) (k : Option Nat),
      findSession db id = some s → s.status ≠ .completed →
      Ev.llmCall .analysisCall ∈ streamHandler db id o k ∧
      (∀ p, Ev.sqlInsertPhase p ∈ (executeDeep s.query s.id o).1 →
        Ev.sqlInsertPhase p ∈ streamHandler db id o k)) ∧
    (∀ (db : DB) (id : Nat) (s : Session) (o : Oracle) (r : EngineResult),
      findSession db id = some s → s.status ≠ .completed →
      (executeDeep s.query s.id o).2 = .ok r →
      Ev.sqlInsertReport ⟨s.id, r.report, r.citations⟩ ∈ streamHandler db id o none ∧
      (applyTrace db (streamHandler db id o none)).reports =
        db.reports ++ [⟨s.id, r.report, r.citations⟩]) ∧
    (∀ (h : String → String) (cache : CacheStore ResearchPayload) (q : String) (o : Oracle),
      (cacheGet h cache q .deep (o.apiNow 0)).1 = none →
      (postResearch h cache q .deep o).1 =
        [.sqlInsertSession ⟨o.newSessionId, q, .deep, .running, none, none, o.dbNow⟩,
         .respond (.deepStarted o.newSessionId)]) := by
  refine ⟨?_, ?_, ?_⟩
  · intro db id s o k hfind hnc
    constructor
    · obtain ⟨i, hi⟩ := mem_enumFrom_of_mem 0 _ _ (executeDeep_has_analysisCall s.query s.id o)
      exact mid_sub_stream db id s o k _ hfind hnc
        (routeProgress_keeps k _ i (Ev.llmCall .analysisCall)
          (by simpa [List.enum] using hi) rfl)
    · intro p hp
      obtain ⟨i, hi⟩ := mem_enumFrom_of_mem 0 _ _ hp
      exact mid_sub_stream db id s o k _ hfind hnc
        (routeProgress_keeps k _ i (Ev.sqlInsertPhase p)
          (by simpa [List.enum] using hi) rfl)
  · intro db id s o r hfind hnc hout
    have hab : abortedAt none (executeDeep s.query s.id o).1.length = false := rfl
    have htr : streamHandler db id o none =
        startingEvent ::
          (routeProgress none (executeDeep s.query s.id o).1.enum ++
            [Ev.sqlInsertReport ⟨s.id, r.report, r.citations⟩,
             Ev.sqlUpdateCompleted s.id r.latencyMs r.tokens.total,
             Ev.cacheStore s.query s.mode
               ⟨s.id, r.report, r.citations, r.tokens, r.latencyMs, s.mode, s.query⟩
               (o.apiNow 3),
             Ev.sseWrite "complete"
               (.completeData s.id r.report r.citations r.tokens r.latencyMs)]) := by
      simp only [streamHandler, hfind]
      rw [if_neg hnc]
      simp only [streamRun, hout]
      simp [hab]
    constructor
    · rw [htr]
      exact List.mem_cons.mpr (Or.inr (List.mem_append.mpr (Or.inr (by simp))))
    · rw [htr]
      rw [show applyTrace db (startingEvent :: _) =
          applyTrace (applyEv db startingEvent)
            (routeProgress none (executeDeep s.query s.id o).1.enum ++
              [Ev.sqlInsertReport ⟨s.id, r.report, r.citations⟩,
               Ev.sqlUpdateCompleted s.id r.latencyMs r.tokens.total,
               Ev.cacheStore s.query s.mode
                 ⟨s.id, r.report, r.citations, r.tokens, r.latencyMs, s.mode, s.query⟩
                 (o.apiNow 3),
               Ev.sseWrite "complete"
                 (.completeData s.id r.report r.citations r.tokens r.latencyMs)]) from rfl,
        show applyEv db startingEvent = db from rfl, applyTrace_append]
      have hmid := applyTrace_harmless db
        (routeProgress none (executeDeep s.query s.id o).1.enum)
        (mid_harmless s.query s.id o none)
      set db2 := applyTrace db (routeProgress none (executeDeep s.query s.id o).1.enum)
      have htail : (applyTrace db2
          [Ev.sqlInsertReport ⟨s.id, r.report, r.citations⟩,
           Ev.sqlUpdateCompleted s.id r.latencyMs r.tokens.total,
           Ev.cacheStore s.query s.mode
             ⟨s.id, r.report, r.citations, r.tokens, r.latencyMs, s.mode, s.query⟩
             (o.apiNow 3),
           Ev.sseWrite "complete"
             (.completeData s.id r.report r.citations r.tokens r.latencyMs)]).reports =
          db2.reports ++ [⟨s.id, r.report, r.citations⟩] := by
        simp [applyTrace, applyEv]
      rw [htail, hmid.2.1]
  · intro h cache q o hmiss
    simp [postResearch, hmiss]

/-- A database holding one quick session already in status `failed`. -/
def dbQuickFailed : DB := ⟨[⟨11, "qf", .quick, .failed, none, none, 0⟩], [], [], []⟩

/-- C10 witness: the theorem applied to a quick-mode session already in
status `failed`, which still triggers a full deep run with its own report
insert, and to a concrete deep POST. -/
theorem claim_C10_witness :
    Ev.llmCall .analysisCall ∈ streamHandler dbQuickFailed 11 demoOracle none ∧
    Ev.sqlInsertReport ⟨11, "REPORT", [⟨1, "T1", "http://a", 1⟩]⟩ ∈
      streamHandler dbQuickFailed 11 demoOracle none ∧
    (applyTrace dbQuickFailed (streamHandler dbQuickFailed 11 demoOracle none)).reports =
      dbQuickFailed.reports ++ [⟨11, "REPORT", [⟨1, "T1", "http://a", 1⟩]⟩] ∧
    (postResearch (fun s => s) [] "abc" .deep demoOracle).1 =
      [.sqlInsertSession ⟨7, "abc", .deep, .running, none, none, 5⟩,
       .respond (.deepStarted 7)] :=
  ⟨(claim_C10_theorem.1 dbQuickFailed 11 ⟨11, "qf", .quick, .failed, none, none, 0⟩
      demoOracle none (by decide) (by decide)).1,
   (claim_C10_theorem.2.1 dbQuickFailed 11 ⟨11, "qf", .quick, .failed, none, none, 0⟩
      demoOracle ⟨"REPORT", [⟨1, "T1", "http://a", 1⟩], ⟨150, 100, 250⟩, 25⟩
      (by decide) (by decide) (by decide)).1,
   (claim_C10_theorem.2.1 dbQuickFailed 11 ⟨11, "qf", .quick, .failed, none, none, 0⟩
      demoOracle ⟨"REPORT", [⟨1, "T1", "http://a", 1⟩], ⟨150, 100, 250⟩, 25⟩
      (by decide) (by decide) (by decide)).2,
   claim_C10_theorem.2.2 (fun s => s) [] "abc" demoOracle (by decide)⟩

end ResearchAgent
